import Mathlib

/-!
Verification development for the OpenWhisperAI push-to-talk daemon.

The definitions below are a shallow embedding of the Rust sources:

- crates/core-input/src/meter.rs   (level meter)
- crates/core-input/src/audio.rs   (audio capture service)
- crates/core-input/src/ptt.rs     (gated PTT capture service)
- crates/transcribe-engine/src/model.rs (model manager)
- apps/tauri/src-tauri/src/ptt.rs  (PTT runtime controller)
- apps/tauri/src-tauri/src/control_server.rs and main.rs (toggle surfaces)

Modelling conventions:
- f32 samples are idealized as rational numbers; a non-finite float
  (NaN or an infinity) is modelled as none.  Exact rational arithmetic
  replaces f32 arithmetic, so float rounding is not modelled.
- Mutex-guarded data is plain data; a lock acquisition that can observe
  poisoning takes an explicit poisoned flag mirroring the map_err arms.
- The filesystem is a map from path strings to file states, and the
  side-effecting model-manager operation returns the list of filesystem
  events it performs instead of mutating a real disk.
- SHA-256 is kept abstract: definitions take the digest function as a
  parameter, since only equality of digests matters to the control flow.
-/

namespace OpenWhisperAI

/-! ## Level meter (crates/core-input/src/meter.rs) -/

/-- One audio sample as delivered to the meter; none models a non-finite
f32 (NaN or infinity), some q a finite sample idealized as a rational. -/
abbrev Sample := Option ℚ

/-- Mirror of LevelReading.  The source stores rms (a square root); in
exact arithmetic the square root of a rational is generally irrational,
so this embedding stores its square in rmsSq: the source field satisfies
rms = sqrt rmsSq exactly. -/
structure LevelReading where
  rmsSq : ℚ
  peak : ℚ
  clipped : Bool
  deriving DecidableEq

/-- Mirror of LevelReading::silence. -/
def LevelReading.silence : LevelReading :=
  { rmsSq := 0, peak := 0, clipped := false }

/-- Accumulator of the sample loop in LevelMeter::update. -/
structure MeterAcc where
  peak : ℚ
  sum : ℚ
  clipped : Bool
  count : ℕ
  deriving DecidableEq

/-- One iteration of the sample loop in LevelMeter::update: non-finite
samples are skipped, otherwise peak, clipping flag, sum of squares and
count are folded. -/
def meterStep (acc : MeterAcc) (s : Sample) : MeterAcc :=
  match s with
  | none => acc
  | some q =>
      let magnitude := |q|
      { peak := if magnitude > acc.peak then magnitude else acc.peak
        sum := acc.sum + q * q
        clipped := acc.clipped || decide (magnitude ≥ 1)
        count := acc.count + 1 }

/-- Mirror of LevelMeter::update acting on the stored reading.  The
final is_finite guard of the source cannot fire in exact arithmetic
(sums of squares of rationals are finite), so it is omitted. -/
def LevelMeter.update (reading : LevelReading) (samples : List Sample) : LevelReading :=
  if samples.isEmpty then reading
  else
    let acc := samples.foldl meterStep { peak := 0, sum := 0, clipped := false, count := 0 }
    if acc.count = 0 then reading
    else { rmsSq := acc.sum / (acc.count : ℚ), peak := acc.peak, clipped := acc.clipped }

/-- The finite samples of a block, in order (non-finite entries dropped). -/
def finiteSamples (samples : List Sample) : List ℚ :=
  samples.filterMap id

/-! ## Model manager (crates/transcribe-engine/src/model.rs) -/

/-- Mirror of ModelId. -/
inductive ModelId
  | tiny
  | base
  | small
  | medium
  | large
  | custom (name : String)
  deriving DecidableEq

/-- Mirror of ModelId::display_name. -/
def ModelId.display_name : ModelId → String
  | .tiny => "tiny"
  | .base => "base"
  | .small => "small"
  | .medium => "medium"
  | .large => "large"
  | .custom name => name

/-- Mirror of ModelSpec. -/
structure ModelSpec where
  id : ModelId
  filename : String
  download_url : Option String := none
  sha256 : Option String := none
  size_bytes : Option ℕ := none
  deriving DecidableEq

/-- Mirror of ModelError.  The Io variant carries only a message, the
payload of std::io::Error being opaque to the control flow. -/
inductive ModelError
  | unregisteredModel (name : String)
  | invalidFilename (filename : String)
  | missingFile (path : String)
  | missingDownloadUrl (name : String)
  | downloadFailed (url : String)
  | sizeMismatch (expected actual : ℕ)
  | checksumMismatch (expected actual : String)
  | ioError (message : String)
  deriving DecidableEq

/-- State of one path of the model cache directory.  The unreadable
state models a file whose metadata is readable (so exists() succeeds
and the size is known) but whose contents cannot be opened for
hashing, which surfaces as the Io arm of ModelError. -/
inductive FileState
  | absent
  | present (bytes : List ℕ)
  | unreadable (size : ℕ)
  deriving DecidableEq

/-- Decidable equality of Except results, used to evaluate the model
manager on concrete fixtures. -/
instance {e a : Type} [DecidableEq e] [DecidableEq a] : DecidableEq (Except e a)
  | .ok x, .ok y =>
      if h : x = y then .isTrue (by rw [h])
      else .isFalse (by intro hc; cases hc; exact h rfl)
  | .ok _, .error _ => .isFalse (by intro hc; cases hc)
  | .error _, .ok _ => .isFalse (by intro hc; cases hc)
  | .error x, .error y =>
      if h : x = y then .isTrue (by rw [h])
      else .isFalse (by intro hc; cases hc; exact h rfl)

/-- The cache directory as a map from path to file state. -/
abbrev Fs := String → FileState

/-- Filesystem effects performed by the model manager, recorded as a
trace instead of mutating a disk. -/
inductive FsEvent
  | create (path : String) (bytes : List ℕ)
  | rename (src dst : String)
  | download (url : String)
  deriving DecidableEq

/-- Effect of one recorded event on the filesystem map. -/
def applyFsEvent (fs : Fs) : FsEvent → Fs
  | .create path bytes => fun p => if p = path then .present bytes else fs p
  | .rename src dst => fun p =>
      if p = dst then fs src else if p = src then .absent else fs p
  | .download _ => fs

/-- Run a trace of filesystem events. -/
def runFsEvents (fs : Fs) (events : List FsEvent) : Fs :=
  events.foldl applyFsEvent fs

/-- Number of downloader invocations recorded in a trace. -/
def downloadCount (events : List FsEvent) : ℕ :=
  (events.filter fun e => match e with | .download _ => true | _ => false).length

/-- Whether the first char list is an initial segment of the second;
basis of the str::starts_with mirror. -/
def charsLeadWith : List Char → List Char → Bool
  | [], _ => true
  | _ :: _, [] => false
  | p :: ps, c :: cs => p = c && charsLeadWith ps cs

/-- Mirror of str::starts_with for a literal pattern. -/
def strStartsWith (s pre : String) : Bool :=
  charsLeadWith pre.data s.data

/-- Split a char list on a separator char, keeping empty chunks, as
str::split does. -/
def splitChars (sep : Char) : List Char → List (List Char)
  | [] => [[]]
  | c :: cs =>
    let rest := splitChars sep cs
    if c = sep then [] :: rest
    else
      match rest with
      | [] => [[c]]
      | r :: rs => (c :: r) :: rs

/-- Mirror of str::split on a one-char separator. -/
def splitOnChar (sep : Char) (s : String) : List String :=
  (splitChars sep s.data).map String.mk

/-- Join strings with a one-char separator (inverse of splitOnChar). -/
def joinWithChar (sep : Char) : List String → String
  | [] => ""
  | [x] => x
  | x :: xs => x ++ String.singleton sep ++ joinWithChar sep xs

/-- ASCII lower-casing of one character, as u8::to_ascii_lowercase. -/
def asciiLower (c : Char) : Char :=
  if 65 ≤ c.toNat ∧ c.toNat ≤ 90 then Char.ofNat (c.toNat + 32) else c

/-- Mirror of str::to_ascii_lowercase. -/
def asciiLowerStr (s : String) : String :=
  String.mk (s.data.map asciiLower)

/-- ASCII whitespace test; str::trim strips Unicode whitespace, of
which only the ASCII members can occur in the inputs modelled here. -/
def isSpaceChar (c : Char) : Bool :=
  c = ' ' || c = '\t' || c = '\n' || c = '\r'

/-- Mirror of str::trim. -/
def trimStr (s : String) : String :=
  String.mk (((s.data.dropWhile isSpaceChar).reverse.dropWhile isSpaceChar).reverse)

/-- Mirror of str::eq_ignore_ascii_case. -/
def eqIgnoreAsciiCase (a b : String) : Bool :=
  a.data.map asciiLower = b.data.map asciiLower

/-- Path components in the sense of std::path on Unix: split on the
separator and drop empty chunks.  CurDir components are irrelevant here
(only ParentDir is tested for) and Prefix components do not exist on
Unix, so the component kinds reduce to the raw chunks. -/
def pathComponents (filename : String) : List String :=
  (splitOnChar '/' filename).filter fun c => c ≠ ""

/-- Mirror of validate_model_filename: empty, absolute, or containing a
parent-directory component is rejected.  Prefix components (Windows
drive prefixes) cannot occur on Unix paths and need no separate test. -/
def validate_model_filename (filename : String) : Except ModelError Unit :=
  if filename = "" then .error (.invalidFilename filename)
  else if strStartsWith filename "/" then .error (.invalidFilename filename)
  else if (pathComponents filename).any (fun c => c = "..") then
    .error (.invalidFilename filename)
  else .ok ()

/-- Mirror of Path::join for a relative filename under the root. -/
def joinPath (root filename : String) : String :=
  root ++ "/" ++ filename

/-- File stem of one path component, following Path::file_stem: the part
before the last dot, except that a lone leading dot (hidden file) does
not begin an extension. -/
def fileStem (name : String) : String :=
  let pieces := splitOnChar '.' name
  match pieces with
  | [] => name
  | [_] => name
  | first :: rest =>
      if first = "" ∧ rest.length = 1 then name
      else joinWithChar '.' pieces.dropLast

/-- Mirror of Path::with_extension with a non-empty extension: the last
path component keeps its stem and the extension is REPLACED (appended
only when the component has no extension). -/
def withExtension (path ext : String) : String :=
  let parts := splitOnChar '/' path
  match parts.reverse with
  | [] => path
  | last :: restRev =>
      joinWithChar '/' (restRev.reverse ++ [fileStem last ++ "." ++ ext])

/-- Size check of verify_model_file / verify_model_bytes: only applied
when the spec carries size_bytes. -/
def checkSize (spec : ModelSpec) (actual : ℕ) : Except ModelError Unit :=
  match spec.size_bytes with
  | none => .ok ()
  | some expected =>
      if actual = expected then .ok () else .error (.sizeMismatch expected actual)

/-- Checksum check: only applied when the spec carries sha256; the
digest read may itself fail (streaming from an unreadable file), and
the comparison is ASCII case-insensitive. -/
def checkSha (spec : ModelSpec) (readSha : Except ModelError String) : Except ModelError Unit :=
  match spec.sha256 with
  | none => .ok ()
  | some expected =>
      match readSha with
      | .error e => .error e
      | .ok actual =>
          if eqIgnoreAsciiCase expected actual then .ok ()
          else .error (.checksumMismatch expected actual)

/-- Mirror of verify_model_file: existence, then size, then checksum,
in that order.  The sha argument is the abstract SHA-256 digest
function, rendered as a hex string. -/
def verify_model_file (sha : List ℕ → String) (fs : Fs) (path : String)
    (spec : ModelSpec) : Except ModelError Unit :=
  match fs path with
  | .absent => .error (.missingFile path)
  | .present bytes => do
      checkSize spec bytes.length
      checkSha spec (.ok (sha bytes))
  | .unreadable size => do
      checkSize spec size
      checkSha spec (.error (.ioError "failed to open model file"))

/-- Mirror of verify_model_bytes on downloaded bytes. -/
def verify_model_bytes (sha : List ℕ → String) (spec : ModelSpec)
    (bytes : List ℕ) : Except ModelError Unit := do
  checkSize spec bytes.length
  checkSha spec (.ok (sha bytes))

/-- Mirror of ModelManager: root directory and in-memory registry.  The
HashMap is rendered as an association list keyed by ModelId. -/
structure ModelManager where
  root : String
  registry : List ModelSpec

/-- Registry lookup, as HashMap::get after register_model insertions. -/
def ModelManager.lookup (m : ModelManager) (id : ModelId) : Option ModelSpec :=
  m.registry.find? fun s => s.id = id

/-- Mirror of ModelManager::register_model: replace any spec with the
same id, otherwise add. -/
def ModelManager.register_model (m : ModelManager) (spec : ModelSpec) : ModelManager :=
  { m with registry := spec :: m.registry.filter fun s => s.id ≠ spec.id }

/-- Mirror of ModelManager::model_path. -/
def ModelManager.model_path (m : ModelManager) (id : ModelId) : Except ModelError String :=
  match m.lookup id with
  | none => .error (.unregisteredModel id.display_name)
  | some spec => do
      validate_model_filename spec.filename
      pure (joinPath m.root spec.filename)

/-- Mirror of ModelManager::ensure_model_available. -/
def ModelManager.ensure_model_available (sha : List ℕ → String) (fs : Fs)
    (m : ModelManager) (id : ModelId) : Except ModelError String :=
  match m.lookup id with
  | none => .error (.unregisteredModel id.display_name)
  | some spec => do
      validate_model_filename spec.filename
      let path := joinPath m.root spec.filename
      verify_model_file sha fs path spec
      pure path

/-- The error arms of ensure_model_cached that fall through to a
re-download (MissingFile, SizeMismatch, ChecksumMismatch). -/
def cachedRetryable : ModelError → Bool
  | .missingFile _ => true
  | .sizeMismatch _ _ => true
  | .checksumMismatch _ _ => true
  | _ => false

/-- Mirror of ModelManager::ensure_model_cached.  The downloader is a
function from URL to bytes or error; the returned trace records every
downloader invocation and filesystem write, in order.  create_dir_all
of the parent is a no-op on the path map and is not recorded. -/
def ModelManager.ensure_model_cached (sha : List ℕ → String) (m : ModelManager)
    (id : ModelId) (downloader : String → Except ModelError (List ℕ)) (fs : Fs) :
    Except ModelError String × List FsEvent :=
  match m.lookup id with
  | none => (.error (.unregisteredModel id.display_name), [])
  | some spec =>
    match validate_model_filename spec.filename with
    | .error e => (.error e, [])
    | .ok _ =>
      let path := joinPath m.root spec.filename
      match verify_model_file sha fs path spec with
      | .ok _ => (.ok path, [])
      | .error e =>
        if cachedRetryable e then
          match spec.download_url with
          | none => (.error (.missingDownloadUrl id.display_name), [])
          | some url =>
            match downloader url with
            | .error e2 => (.error e2, [.download url])
            | .ok bytes =>
              match verify_model_bytes sha spec bytes with
              | .error e2 => (.error e2, [.download url])
              | .ok _ =>
                let tmp := withExtension path "download"
                (.ok path, [.download url, .create tmp bytes, .rename tmp path])
        else (.error e, [])

/-- Mirror of ModelManager::write_model_bytes. -/
def ModelManager.write_model_bytes (m : ModelManager) (id : ModelId)
    (bytes : List ℕ) : Except ModelError String × List FsEvent :=
  match m.model_path id with
  | .error e => (.error e, [])
  | .ok path => (.ok path, [.create path bytes])

/-! ## Hotkey data model (crates/core-input/src/hotkeys.rs) -/

/-- Mirror of HotkeyKey. -/
inductive HotkeyKey
  | a | b | c | d | e | f | g | h | i | j | k | l | m
  | n | o | p | q | r | s | t | u | v | w | x | y | z
  | f1 | f2 | f3 | f4 | f5 | f6 | f7 | f8 | f9 | f10 | f11 | f12
  | space | enter | escape | tab | backspace | left | right | up | down
  deriving DecidableEq

/-- Mirror of HotkeyModifiers. -/
structure HotkeyModifiers where
  ctrl : Bool
  alt : Bool
  shift : Bool
  meta : Bool
  deriving DecidableEq

/-- Mirror of HotkeyModifiers::none. -/
def HotkeyModifiers.noMods : HotkeyModifiers :=
  { ctrl := false, alt := false, shift := false, meta := false }

/-- Mirror of Hotkey. -/
structure Hotkey where
  key : HotkeyKey
  modifiers : HotkeyModifiers
  deriving DecidableEq

/-- Mirror of HotkeyState. -/
inductive HotkeyState
  | pressed
  | released
  deriving DecidableEq

/-- Mirror of HotkeyActionEvent. -/
structure HotkeyActionEvent where
  action : String
  hotkey : Hotkey
  state : HotkeyState
  deriving DecidableEq

/-! ## Audio capture service (crates/core-input/src/audio.rs) -/

/-- Mirror of AudioDevice.  Modelled from the spec: the copy of
audio.rs under src declares only id and name, while the runtime under
apps/tauri and the core-input tests read sample_rate and channels; the
spec data model gives AudioDevice = (id, name, sample_rate, channels),
so the two missing fields are included here. -/
structure AudioDevice where
  id : String
  name : String
  sample_rate : ℕ
  channels : ℕ
  deriving DecidableEq

/-- Mirror of AudioError. -/
inductive AudioError
  | backend (message : String)
  | noInputDevice
  | deviceNotFound
  | alreadyRunning
  | notRunning
  | meterLockPoisoned
  deriving DecidableEq

/-- Display strings of AudioError as produced by err.to_string(). -/
def AudioError.message : AudioError → String
  | .backend msg => "audio backend error: " ++ msg
  | .noInputDevice => "no input devices available"
  | .deviceNotFound => "input device not found"
  | .alreadyRunning => "audio capture already running"
  | .notRunning => "audio capture is not running"
  | .meterLockPoisoned => "level meter lock was poisoned"

/-- Outcomes of the audio backend, one field per fallible backend
operation used by AudioCaptureService (the backend is a capability
interface; its behaviour is an input of the model). -/
structure AudioBackendM where
  listInput : Except AudioError (List AudioDevice)
  defaultInput : Except AudioError (Option AudioDevice)
  buildStream : AudioDevice → Except AudioError Unit
  playStream : AudioDevice → Except AudioError Unit

/-- Mirror of the mutable state of AudioCaptureService (the meter lives
behind its own mutex and is not tracked here; the stream handle is
tracked as the running flag). -/
structure AudioSvc where
  devices : List AudioDevice
  selected : Option AudioDevice
  running : Bool
  deriving DecidableEq

/-- Mirror of AudioCaptureService::refresh_devices. -/
def AudioCaptureService.refresh_devices (b : AudioBackendM) (svc : AudioSvc) :
    Except AudioError AudioSvc :=
  match b.listInput with
  | .error e => .error e
  | .ok ds => .ok { svc with devices := ds }

/-- Mirror of AudioCaptureService::select_device: selects from the
refreshed list, DeviceNotFound otherwise (state unchanged). -/
def AudioCaptureService.select_device (svc : AudioSvc) (device_id : String) :
    Except AudioError AudioSvc :=
  match svc.devices.find? (fun d => d.id = device_id) with
  | some d => .ok { svc with selected := some d }
  | none => .error .deviceNotFound

/-- Mirror of AudioCaptureService::start_internal: AlreadyRunning when a
stream exists; otherwise the selected device or the backend default is
used, the stream is built and played, and the device is memoized. -/
def AudioCaptureService.start_internal (b : AudioBackendM) (svc : AudioSvc) :
    Except AudioError AudioSvc :=
  if svc.running then .error .alreadyRunning
  else
    match (match svc.selected with
           | some d => Except.ok d
           | none =>
             match b.defaultInput with
             | .error e => .error e
             | .ok none => .error .noInputDevice
             | .ok (some d) => .ok d) with
    | .error e => .error e
    | .ok device =>
      match b.buildStream device with
      | .error e => .error e
      | .ok _ =>
        match b.playStream device with
        | .error e => .error e
        | .ok _ => .ok { svc with selected := some device, running := true }

/-- Mirror of AudioCaptureService::stop. -/
def AudioCaptureService.stopSvc (svc : AudioSvc) : Except AudioError AudioSvc :=
  if svc.running then .ok { svc with running := false } else .error .notRunning

/-- Mirror of AudioCaptureService::level: the meter lock is taken and a
poisoned lock is surfaced as MeterLockPoisoned (the reading itself is
passed in, the meter being outside this state record). -/
def AudioCaptureService.level (meterPoisoned : Bool) (reading : LevelReading) :
    Except AudioError LevelReading :=
  if meterPoisoned then .error .meterLockPoisoned else .ok reading

/-! ## PTT capture service (crates/core-input/src/ptt.rs) -/

/-- Mirror of PttCaptureError. -/
inductive PttCaptureError
  | audio (e : AudioError)
  | bufferLockPoisoned
  | meterLockPoisoned
  deriving DecidableEq

/-- Display strings of PttCaptureError as produced by err.to_string()
(the Audio arm is transparent). -/
def PttCaptureError.message : PttCaptureError → String
  | .audio e => e.message
  | .bufferLockPoisoned => "capture buffer lock was poisoned"
  | .meterLockPoisoned => "level meter lock was poisoned"

/-- Mirror of the mutable state of PttCaptureService: the action tag,
the composed audio service, the gated buffer and the capture flag. -/
structure PttCapture where
  action : String
  audio : AudioSvc
  buffer : List ℚ
  captureActive : Bool
  deriving DecidableEq

/-- Mirror of PttCaptureService::take_audio: a poisoned buffer lock is
surfaced as BufferLockPoisoned, otherwise the buffer is moved out and
reset empty.  The pair carries the service state after the call. -/
def PttCaptureService.take_audio (bufferPoisoned : Bool) (c : PttCapture) :
    Except PttCaptureError (List ℚ) × PttCapture :=
  if bufferPoisoned then (.error .bufferLockPoisoned, c)
  else (.ok c.buffer, { c with buffer := [] })

/-- Mirror of PttCaptureService::level. -/
def PttCaptureService.level (meterPoisoned : Bool) (reading : LevelReading) :
    Except PttCaptureError LevelReading :=
  if meterPoisoned then .error .meterLockPoisoned else .ok reading

/-- Mirror of PttCaptureService::handle_hotkey_action: other actions
are ignored; Pressed first sets the capture flag, then clears the
buffer under the lock (so on a poisoned lock the flag is already set);
Released only clears the flag and touches no lock. -/
def PttCaptureService.handle_hotkey_action (bufferPoisoned : Bool)
    (c : PttCapture) (event : HotkeyActionEvent) :
    Except PttCaptureError Unit × PttCapture :=
  if event.action ≠ c.action then (.ok (), c)
  else
    match event.state with
    | .pressed =>
        let c := { c with captureActive := true }
        if bufferPoisoned then (.error .bufferLockPoisoned, c)
        else (.ok (), { c with buffer := [] })
    | .released => (.ok (), { c with captureActive := false })

/-- Mirror of PttCaptureService::start: clear the flag, clear the
buffer, reset the meter (both under their locks, surfacing poisoning),
then start the audio stream with the combined callback. -/
def PttCaptureService.start (bufferPoisoned meterPoisoned : Bool)
    (b : AudioBackendM) (c : PttCapture) :
    Except PttCaptureError Unit × PttCapture :=
  let c := { c with captureActive := false }
  if bufferPoisoned then (.error .bufferLockPoisoned, c)
  else
    let c := { c with buffer := ([] : List ℚ) }
    if meterPoisoned then (.error .meterLockPoisoned, c)
    else
      match AudioCaptureService.start_internal b c.audio with
      | .error e => (.error (.audio e), c)
      | .ok svc => (.ok (), { c with audio := svc })

/-- Mirror of PttCaptureService::stop: clear the flag and stop the
audio stream; no buffer or meter lock is taken. -/
def PttCaptureService.stopCapture (c : PttCapture) :
    Except PttCaptureError Unit × PttCapture :=
  let c := { c with captureActive := false }
  match AudioCaptureService.stopSvc c.audio with
  | .error e => (.error (.audio e), c)
  | .ok svc => (.ok (), { c with audio := svc })

/-! ## Shared runtime types (crates/shared-types and spec section 3/6)

The copy of shared-types under src predates the PTT runtime: it lacks
PttState, OutputMode and the output_mode settings field that
apps/tauri/src-tauri/src/ptt.rs imports and uses.  Those are modelled
from the spec, which pins them exactly. -/

/-- Modelled from the spec: PttState of shared-types, the tagged state
of the PTT runtime (Idle, Armed, Capturing, Processing, Error(msg)),
missing from the shared-types copy under src but fully determined by
the spec data model and by its uses in the runtime. -/
inductive PttState
  | idle
  | armed
  | capturing
  | processing
  | error (message : String)
  deriving DecidableEq

/-- Whether a runtime state is the error state. -/
def PttState.isError : PttState → Bool
  | .error _ => true
  | _ => false

/-- Modelled from the spec: OutputMode of shared-types (ui_only,
clipboard, direct_write), missing from the shared-types copy under src. -/
inductive OutputMode
  | uiOnly
  | clipboard
  | directWrite
  deriving DecidableEq

/-- Mirror of OverlayPosition. -/
inductive OverlayPosition
  | docked
  | floating
  | compact
  deriving DecidableEq

/-- Mirror of AppSettings, with the output_mode field the spec gives
and the runtime reads (absent from the shared-types copy under src). -/
structure AppSettings where
  input_device : String
  noise_reduction : Bool
  auto_language : Bool
  latency_ms : ℕ
  auto_export : Bool
  overlay_position : OverlayPosition
  show_timestamps : Bool
  auto_punctuation : Bool
  output_mode : OutputMode
  deriving DecidableEq

/-- Mirror of AppSettings::default.  The default output mode is not
fixed by the available sources; ui_only is used and no claim depends
on the choice. -/
def AppSettings.defaults : AppSettings :=
  { input_device := "default"
    noise_reduction := true
    auto_language := false
    latency_ms := 600
    auto_export := true
    overlay_position := .docked
    show_timestamps := true
    auto_punctuation := true
    output_mode := .uiOnly }

/-! ## PTT runtime controller (apps/tauri/src-tauri/src/ptt.rs) -/

/-- Events published by the runtime through emit_app_event.  Level
events and the payload of the model status snapshot concern external
collaborators and are out of scope of the claims; the model status
publication is recorded as a bare marker so event ordering stays
observable. -/
inductive AppEvent
  | stateEvent (s : PttState)
  | errorEvent (message : String)
  | transcriptionEvent (text : String)
  | modelStatusEvent
  deriving DecidableEq

/-- Mirror of PttHotkeyModifiers. -/
structure PttHotkeyModifiers where
  ctrl : Bool
  alt : Bool
  shift : Bool
  meta : Bool
  deriving DecidableEq

/-- Mirror of PttHotkeyPayload. -/
structure PttHotkeyPayload where
  key : String
  modifiers : PttHotkeyModifiers
  deriving DecidableEq

/-- Mirror of PttHotkeyPayload::default: ctrl+alt+space. -/
def PttHotkeyPayload.defaults : PttHotkeyPayload :=
  { key := "space"
    modifiers := { ctrl := true, alt := true, shift := false, meta := false } }

/-- Mirror of parse_hotkey_key: trim, ASCII lowercase, then match the
single letters and the named keys.  The source matches a single char
for letters; matching the one-character strings is equivalent. -/
def parse_hotkey_key (name : String) : Option HotkeyKey :=
  match asciiLowerStr (trimStr name) with
  | "a" => some .a | "b" => some .b | "c" => some .c | "d" => some .d
  | "e" => some .e | "f" => some .f | "g" => some .g | "h" => some .h
  | "i" => some .i | "j" => some .j | "k" => some .k | "l" => some .l
  | "m" => some .m | "n" => some .n | "o" => some .o | "p" => some .p
  | "q" => some .q | "r" => some .r | "s" => some .s | "t" => some .t
  | "u" => some .u | "v" => some .v | "w" => some .w | "x" => some .x
  | "y" => some .y | "z" => some .z
  | "f1" => some .f1 | "f2" => some .f2 | "f3" => some .f3 | "f4" => some .f4
  | "f5" => some .f5 | "f6" => some .f6 | "f7" => some .f7 | "f8" => some .f8
  | "f9" => some .f9 | "f10" => some .f10 | "f11" => some .f11 | "f12" => some .f12
  | "space" => some .space | "enter" => some .enter | "escape" => some .escape
  | "tab" => some .tab | "backspace" => some .backspace
  | "left" => some .left | "right" => some .right
  | "up" => some .up | "down" => some .down
  | _ => none

/-- Mirror of PttHotkeyPayload::to_hotkey. -/
def PttHotkeyPayload.to_hotkey (p : PttHotkeyPayload) : Except String Hotkey :=
  match parse_hotkey_key p.key with
  | none => .error ("unsupported hotkey key " ++ p.key)
  | some key =>
    .ok { key := key
          modifiers :=
            { ctrl := p.modifiers.ctrl, alt := p.modifiers.alt
              shift := p.modifiers.shift, meta := p.modifiers.meta } }

/-- Mirror of model_id_from_name.  String::to_ascii_lowercase is
rendered with String.toLower, which agrees on ASCII input. -/
def model_id_from_name : Option String → ModelId
  | none => .base
  | some name =>
    match asciiLowerStr (trimStr name) with
    | "tiny" => .tiny
    | "base" => .base
    | "small" => .small
    | "medium" => .medium
    | "large" => .large
    | other => .custom other

/-- Mirror of downmix_to_mono: average each frame of interleaved
channels. -/
def downmix_to_mono (audio : List ℚ) (channels : ℕ) : List ℚ :=
  if channels = 0 then []
  else
    let frames := audio.length / channels
    (List.range frames).map fun frame =>
      (((List.range channels).map fun ch => audio.getD (frame * channels + ch) 0).sum)
        / (channels : ℚ)

/-- Rounding of a non-negative rational to the nearest natural, ties
away from zero, as f64::round followed by the usize cast. -/
def roundNat (q : ℚ) : ℕ :=
  (Int.toNat ⌊q + 1 / 2⌋)

/-- The interpolation loop of resample_to_16k_mono: one output sample
per step, stopping early when the source index runs past the input
(the break in the source). -/
def resampleLoop (mono : List ℚ) (step : ℚ) : ℕ → ℕ → List ℚ
  | _, 0 => []
  | i, remaining + 1 =>
    let srcPos := (i : ℚ) * step
    let idx := (Int.toNat ⌊srcPos⌋)
    if idx ≥ mono.length then []
    else
      let frac := srcPos - (idx : ℚ)
      let next := if idx + 1 < mono.length then idx + 1 else idx
      let sample := mono.getD idx 0 + (mono.getD next 0 - mono.getD idx 0) * frac
      sample :: resampleLoop mono step (i + 1) remaining

/-- Mirror of resample_to_16k_mono with exact rational arithmetic in
place of f32/f64: downmix, then linear interpolation toward 16 kHz. -/
def resample_to_16k_mono (audio : List ℚ) (sample_rate : ℕ) (channels : ℕ) : List ℚ :=
  let mono := if channels ≤ 1 then audio else downmix_to_mono audio channels
  if mono.isEmpty ∨ sample_rate = 16000 ∨ sample_rate = 0 then mono
  else
    let targetLen := roundNat ((mono.length : ℚ) * 16000 / (sample_rate : ℚ))
    if targetLen = 0 then []
    else resampleLoop mono ((sample_rate : ℚ) / 16000) 0 targetLen

/-- Mirror of TranscriptionWork (the transcriber and injector handles
are capabilities supplied by the environment and not part of the data). -/
structure TranscriptionWork where
  audio : List ℚ
  output_mode : OutputMode
  deriving DecidableEq

/-- Mirror of the mutable state of PttController.  The hotkey manager
rebinding, the shared state store and the external ModelStore only
mirror data shown elsewhere and are not tracked; the transcriber and
injector handles live in the environment. -/
structure Ctrl where
  state : PttState
  armed : Bool
  hotkey : Hotkey
  allowGlobalHotkeys : Bool
  runtimeStarted : Bool
  hasHotkeyReceiver : Bool
  hasLevelReceiver : Bool
  capture : PttCapture
  settings : AppSettings
  activeModel : Option String
  deriving DecidableEq

/-- Capability environment of the controller: audio backend outcomes,
hotkey listener start outcome, the current transcriber, and the two
injector paths used by handle_output. -/
structure Env where
  backend : AudioBackendM
  listenerStart : Except String Unit
  transcribe : List ℚ → Except String String
  clipboardInject : String → Except String Unit
  directInject : String → Except String Unit

/-- Mirror of PttController::set_state: same-to-same transitions are
suppressed, otherwise the state is stored (and written to the shared
store) and a ptt_state event is published. -/
def PttController.set_state (c : Ctrl) (next : PttState) : Ctrl × List AppEvent :=
  if c.state = next then (c, [])
  else ({ c with state := next }, [.stateEvent next])

/-- Mirror of PttController::emit_error: enter the Error state, then
publish a ptt_error event. -/
def PttController.emit_error (c : Ctrl) (message : String) : Ctrl × List AppEvent :=
  ((PttController.set_state c (.error message)).1,
   (PttController.set_state c (.error message)).2 ++ [.errorEvent message])

/-- Mirror of PttController::complete_transcription. -/
def PttController.complete_transcription (c : Ctrl) (result : Except String String) :
    Ctrl × List AppEvent :=
  match result with
  | .ok text =>
      if trimStr text = "" then
        ((PttController.set_state c (if c.armed then .armed else .idle)).1,
         [.errorEvent "no speech detected", .modelStatusEvent]
           ++ (PttController.set_state c (if c.armed then .armed else .idle)).2)
      else
        ((PttController.set_state c (if c.armed then .armed else .idle)).1,
         [.transcriptionEvent text, .modelStatusEvent]
           ++ (PttController.set_state c (if c.armed then .armed else .idle)).2)
  | .error err =>
      ((PttController.set_state (PttController.emit_error c err).1
          (if (PttController.emit_error c err).1.armed then .armed else .idle)).1,
       (PttController.emit_error c err).2 ++ [.modelStatusEvent]
         ++ (PttController.set_state (PttController.emit_error c err).1
              (if (PttController.emit_error c err).1.armed then .armed else .idle)).2)

/-- Mirror of PttController::handle_output: empty text is a no-op;
direct-write failure falls back to a clipboard copy (whose own result
is discarded) and surfaces a warning message. -/
def PttController.handle_output (env : Env) (mode : OutputMode) (text : String) :
    Except String Unit :=
  if text = "" then .ok ()
  else
    match mode with
    | .uiOnly => .ok ()
    | .clipboard => env.clipboardInject text
    | .directWrite =>
        match env.directInject text with
        | .ok _ => .ok ()
        | .error err => .error ("direct write failed; copied to clipboard: " ++ err)

/-- Mirror of PttController::handle_hotkey_action.  The capture locks
cannot be poisoned on this panic-free path, so the capture calls are
made with unpoisoned locks.  The triple is (result, state, events). -/
def PttController.handle_hotkey_action (c : Ctrl) (event : HotkeyActionEvent) :
    Except String (Option TranscriptionWork) × Ctrl × List AppEvent :=
  if ¬ c.armed then (.ok none, c, [])
  else if event.action ≠ "ptt" then (.ok none, c, [])
  else
    let effectiveState :=
      if event.state = HotkeyState.pressed ∧ c.state = PttState.capturing then
        HotkeyState.released
      else event.state
    let effectiveEvent : HotkeyActionEvent :=
      { action := event.action, hotkey := event.hotkey, state := effectiveState }
    match (PttCaptureService.handle_hotkey_action false c.capture effectiveEvent).1 with
    | .error e =>
        (.error e.message,
         { c with capture := (PttCaptureService.handle_hotkey_action false c.capture effectiveEvent).2 },
         [])
    | .ok _ =>
      let c1 : Ctrl :=
        { c with capture := (PttCaptureService.handle_hotkey_action false c.capture effectiveEvent).2 }
      match effectiveState with
      | .pressed =>
          (.ok none, (PttController.set_state c1 .capturing).1,
           (PttController.set_state c1 .capturing).2)
      | .released =>
          let c2 := (PttController.set_state c1 .processing).1
          let evs1 := (PttController.set_state c1 .processing).2
          match (PttCaptureService.take_audio false c2.capture).1 with
          | .error e =>
              (.error e.message,
               { c2 with capture := (PttCaptureService.take_audio false c2.capture).2 },
               evs1 ++ [.modelStatusEvent])
          | .ok audio =>
              let c3 : Ctrl := { c2 with capture := (PttCaptureService.take_audio false c2.capture).2 }
              let sr := match c3.capture.audio.selected with
                        | some d => d.sample_rate
                        | none => 16000
              let ch := match c3.capture.audio.selected with
                        | some d => d.channels
                        | none => 1
              (.ok (some { audio := resample_to_16k_mono audio sr ch
                           output_mode := c3.settings.output_mode }),
               c3, evs1 ++ [.modelStatusEvent])

/-- Mirror of PttController::prepare_audio: refresh devices (failure
propagates), select the configured device when it is not "default"
DISCARDING any selection error, then start the capture service when it
is not yet running. -/
def PttController.prepare_audio (env : Env) (c : Ctrl) (settings : AppSettings) :
    Except String Unit × Ctrl :=
  match AudioCaptureService.refresh_devices env.backend c.capture.audio with
  | .error e => (.error e.message, c)
  | .ok svc =>
    let svc2 :=
      if settings.input_device ≠ "default" then
        match AudioCaptureService.select_device svc settings.input_device with
        | .error _ => svc
        | .ok s2 => s2
      else svc
    if ¬ svc2.running then
      match (PttCaptureService.start false false env.backend { c.capture with audio := svc2 }).1 with
      | .error e =>
          (.error e.message,
           { c with capture := (PttCaptureService.start false false env.backend { c.capture with audio := svc2 }).2 })
      | .ok _ =>
          (.ok (),
           { c with capture := (PttCaptureService.start false false env.backend { c.capture with audio := svc2 }).2 })
    else (.ok (), { c with capture := { c.capture with audio := svc2 } })

/-- Mirror of PttController::set_active_model: the transcriber handle
is rebuilt (a capability swap, not data), the active-model field is
replaced by the requested name or the display name of the resolved id,
the external ModelStore overrides are cleared, and the model status
snapshot is re-published. -/
def PttController.set_active_model (c : Ctrl) (model_name : Option String) :
    Ctrl × List AppEvent :=
  let model_id := model_id_from_name model_name
  let display := model_id.display_name
  let active := match model_name with
                | some n => some n
                | none => some display
  ({ c with activeModel := active }, [.modelStatusEvent])

/-- Mirror of PttController::arm: store the settings, swap the active
model, prepare audio (failure propagates with the state untouched),
set the armed flag, re-publish model status and enter Armed. -/
def PttController.arm (env : Env) (c : Ctrl) (settings : AppSettings)
    (active_model : Option String) : Except String PttState × Ctrl × List AppEvent :=
  let c1 := (PttController.set_active_model { c with settings := settings } active_model).1
  let evs1 := (PttController.set_active_model { c with settings := settings } active_model).2
  match (PttController.prepare_audio env c1 settings).1 with
  | .error e => (.error e, (PttController.prepare_audio env c1 settings).2, evs1)
  | .ok _ =>
    let c3 : Ctrl := { (PttController.prepare_audio env c1 settings).2 with armed := true }
    (.ok (PttController.set_state c3 .armed).1.state,
     (PttController.set_state c3 .armed).1,
     evs1 ++ [.modelStatusEvent] ++ (PttController.set_state c3 .armed).2)

/-- Mirror of PttController::ensure_runtime: idempotent once started;
starts the global hotkey listener when allowed and not yet attached,
then takes the level feed. -/
def PttController.ensure_runtime (env : Env) (c : Ctrl) : Except String Unit × Ctrl :=
  if c.runtimeStarted then (.ok (), c)
  else
    let needListener := c.allowGlobalHotkeys ∧ ¬ c.hasHotkeyReceiver
    match (if needListener then env.listenerStart else .ok ()) with
    | .error e => (.error e, c)
    | .ok _ =>
      let c := if needListener then { c with hasHotkeyReceiver := true } else c
      let c := if ¬ c.hasLevelReceiver then { c with hasLevelReceiver := true } else c
      (.ok (), { c with runtimeStarted := true })

/-- Mirror of PttController::start: ensure the runtime then arm. -/
def PttController.startCtrl (env : Env) (c : Ctrl) (settings : AppSettings)
    (active_model : Option String) : Except String PttState × Ctrl × List AppEvent :=
  match (PttController.ensure_runtime env c).1 with
  | .error e => (.error e, (PttController.ensure_runtime env c).2, [])
  | .ok _ => PttController.arm env (PttController.ensure_runtime env c).2 settings active_model

/-- Mirror of PttController::stop: unconditional; clear the armed flag,
stop the capture stream when running (result discarded), enter Idle. -/
def PttController.stopCtrl (c : Ctrl) : Except String PttState × Ctrl × List AppEvent :=
  let c1 : Ctrl := { c with armed := false }
  let c2 : Ctrl :=
    if c1.capture.audio.running then
      { c1 with capture := (PttCaptureService.stopCapture c1.capture).2 }
    else c1
  (.ok (PttController.set_state c2 .idle).1.state,
   (PttController.set_state c2 .idle).1,
   (PttController.set_state c2 .idle).2)

/-- Mirror of PttController::set_hotkey: parse the payload; on success
rebind the manager (manager contents not tracked) and store the new
hotkey.  The runtime state is untouched either way. -/
def PttController.set_hotkey (c : Ctrl) (payload : PttHotkeyPayload) :
    Except String PttHotkeyPayload × Ctrl :=
  match payload.to_hotkey with
  | .error e => (.error e, c)
  | .ok hk => (.ok payload, { c with hotkey := hk })

/-- The synchronous transcription performed once a Released edge hands
back work: transcribe, dispatch the output on success (warnings are
published, not propagated), then complete. -/
def PttController.runWork (env : Env) (c : Ctrl) (work : TranscriptionWork) :
    Ctrl × List AppEvent :=
  let transcription := env.transcribe work.audio
  let warn :=
    match transcription with
    | .ok text =>
        match PttController.handle_output env work.output_mode text with
        | .error err => [AppEvent.errorEvent err]
        | .ok _ => []
    | .error _ => []
  ((PttController.complete_transcription c transcription).1,
   warn ++ (PttController.complete_transcription c transcription).2)

/-- Mirror of PttController::manual_toggle_recording. -/
def PttController.manual_toggle_recording (env : Env) (c : Ctrl) :
    Except String PttState × Ctrl × List AppEvent :=
  if c.state = PttState.processing then (.ok c.state, c, [])
  else
    let armRes : Except String PttState × Ctrl × List AppEvent :=
      if ¬ c.armed then PttController.arm env c c.settings c.activeModel
      else (.ok c.state, c, [])
    match armRes.1 with
    | .error e => (.error e, armRes.2.1, armRes.2.2)
    | .ok _ =>
      let c2 := armRes.2.1
      let next_state :=
        if c2.state = PttState.capturing then HotkeyState.released else HotkeyState.pressed
      let event : HotkeyActionEvent :=
        { action := "ptt", hotkey := c2.hotkey, state := next_state }
      match (PttController.handle_hotkey_action c2 event).1 with
      | .error e =>
          (.error e, (PttController.handle_hotkey_action c2 event).2.1,
           armRes.2.2 ++ (PttController.handle_hotkey_action c2 event).2.2)
      | .ok none =>
          (.ok (PttController.handle_hotkey_action c2 event).2.1.state,
           (PttController.handle_hotkey_action c2 event).2.1,
           armRes.2.2 ++ (PttController.handle_hotkey_action c2 event).2.2)
      | .ok (some work) =>
          let c3 := (PttController.handle_hotkey_action c2 event).2.1
          (.ok (PttController.runWork env c3 work).1.state,
           (PttController.runWork env c3 work).1,
           armRes.2.2 ++ (PttController.handle_hotkey_action c2 event).2.2
             ++ (PttController.runWork env c3 work).2)

/-- One unit of work of the runtime loop: a command received on the
channel, or one hotkey action event drained by poll_hotkey_events. -/
inductive PttCommand
  | startCmd (settings : AppSettings) (active_model : Option String)
  | stopCmd
  | setHotkey (payload : PttHotkeyPayload)
  | updateSettings (settings : AppSettings)
  | setActiveModel (active_model : Option String)
  | manualToggle
  | hotkeyEdge (event : HotkeyActionEvent)

/-- One step of the runtime loop.  For a hotkey edge this mirrors the
body of poll_hotkey_events: a handler error is published through
emit_error, and returned work is transcribed synchronously. -/
def PttController.runStep (env : Env) (c : Ctrl) : PttCommand → Ctrl × List AppEvent
  | .startCmd settings am =>
      ((PttController.startCtrl env c settings am).2.1,
       (PttController.startCtrl env c settings am).2.2)
  | .stopCmd =>
      ((PttController.stopCtrl c).2.1, (PttController.stopCtrl c).2.2)
  | .setHotkey payload => ((PttController.set_hotkey c payload).2, [])
  | .updateSettings settings => ({ c with settings := settings }, [])
  | .setActiveModel am => PttController.set_active_model c am
  | .manualToggle =>
      ((PttController.manual_toggle_recording env c).2.1,
       (PttController.manual_toggle_recording env c).2.2)
  | .hotkeyEdge event =>
      match (PttController.handle_hotkey_action c event).1 with
      | .error err =>
          ((PttController.emit_error (PttController.handle_hotkey_action c event).2.1 err).1,
           (PttController.handle_hotkey_action c event).2.2
             ++ (PttController.emit_error (PttController.handle_hotkey_action c event).2.1 err).2)
      | .ok none =>
          ((PttController.handle_hotkey_action c event).2.1,
           (PttController.handle_hotkey_action c event).2.2)
      | .ok (some work) =>
          ((PttController.runWork env (PttController.handle_hotkey_action c event).2.1 work).1,
           (PttController.handle_hotkey_action c event).2.2
             ++ (PttController.runWork env (PttController.handle_hotkey_action c event).2.1 work).2)

/-- The runtime loop over a list of commands and edges. -/
def PttController.runSteps (env : Env) (c : Ctrl) : List PttCommand → Ctrl :=
  fun cmds => cmds.foldl (fun c cmd => (PttController.runStep env c cmd).1) c

/-- Mirror of PttController::with_backend: the initial controller
state (default ctrl+alt+space hotkey, capture service on action ptt,
default settings, base model transcriber). -/
def PttController.initial (allowGlobalHotkeys : Bool) : Ctrl :=
  { state := .idle
    armed := false
    hotkey := { key := .space
                modifiers := { ctrl := true, alt := true, shift := false, meta := false } }
    allowGlobalHotkeys := allowGlobalHotkeys
    runtimeStarted := false
    hasHotkeyReceiver := false
    hasLevelReceiver := false
    capture := { action := "ptt"
                 audio := { devices := [], selected := none, running := false }
                 buffer := []
                 captureActive := false }
    settings := AppSettings.defaults
    activeModel := none }

/-! ## Toggle surfaces (control_server.rs and main.rs) -/

/-- Mirror of the request loop of control_server::start: every request
whose URL starts with /toggle invokes PttHandle::manual_toggle, /ping
and everything else do not.  The arrival time of a request plays no
part.  The result is the number of manual_toggle invocations. -/
def controlServerToggleInvocations (requests : List (ℕ × String)) : ℕ :=
  (requests.filter fun r => strStartsWith r.2 "/toggle").length

/-- Mirror of one pass of the signal worker in spawn_signal_listener:
with a pending toggle at time now (ms) and last accepted time last, the
toggle is skipped when now - last < 400 (u64 saturating_sub, matched by
truncated ℕ subtraction), otherwise accepted and last updated. -/
def signalWorkerStep (last now : ℕ) : Bool × ℕ :=
  if now - last < 400 then (false, last) else (true, now)

/-- The signal worker over a list of pending-toggle observation times:
returns the accepted times. -/
def signalWorkerRun (last : ℕ) : List ℕ → List ℕ
  | [] => []
  | now :: rest =>
    match signalWorkerStep last now with
    | (true, last2) => now :: signalWorkerRun last2 rest
    | (false, last2) => signalWorkerRun last2 rest

/-! ## Concrete fixtures used by counterexamples and witnesses -/

/-- A concrete capture-service state. -/
def capFixture : PttCapture :=
  { action := "ptt"
    audio := { devices := [], selected := none, running := true }
    buffer := [1 / 2]
    captureActive := true }

/-- A concrete digest function: the registered fixtures below either
carry no sha256 or expect the digest of the bytes [1, 2]. -/
def shaFixture : List ℕ → String :=
  fun bytes => if bytes = [1, 2] then "aa" else "zz"

/-- A registered custom model with a download URL and no size or
checksum constraints, as the tests of model.rs build. -/
def specCached : ModelSpec :=
  { id := .custom "cached", filename := "cached.bin", download_url := some "file://mock" }

/-- A manager rooted at /models with the cached fixture registered. -/
def mgrCached : ModelManager :=
  { root := "/models", registry := [specCached] }

/-- A downloader that always returns the bytes [7, 7]. -/
def dlCached : String → Except ModelError (List ℕ) :=
  fun _ => .ok [7, 7]

/-- The empty cache directory. -/
def fsEmpty : Fs := fun _ => .absent

/-- A registered spec with full size and checksum constraints. -/
def specChecked : ModelSpec :=
  { id := .custom "m", filename := "m.bin", download_url := some "u"
    sha256 := some "AA", size_bytes := some 2 }

/-- A manager with the checked fixture registered. -/
def mgrChecked : ModelManager :=
  { root := "/models", registry := [specChecked] }

/-- A cache holding a file with matching size and digest for the
checked fixture. -/
def fsMatch : Fs :=
  fun p => if p = "/models/m.bin" then .present [1, 2] else .absent

/-- A cache whose copy of the checked fixture exists with the right
size but cannot be opened for hashing. -/
def fsUnreadable : Fs :=
  fun p => if p = "/models/m.bin" then .unreadable 2 else .absent

/-- A registered spec with a path-traversal filename. -/
def specBad : ModelSpec :=
  { id := .custom "bad", filename := "../bad.bin" }

/-- A manager with the traversal fixture registered. -/
def mgrBad : ModelManager :=
  { root := "/models", registry := [specBad] }

/-! ## Helper lemmas -/

/-- A filename that is empty, absolute, or carries a parent-directory
component fails validation. -/
lemma validate_bad (filename : String)
    (hbad : filename = "" ∨ strStartsWith filename "/" = true ∨
      (pathComponents filename).any (fun c => c = "..") = true) :
    validate_model_filename filename = .error (.invalidFilename filename) := by
  unfold validate_model_filename
  rcases hbad with h | h | h
  · simp [h]
  · by_cases h0 : filename = "" <;> simp [h0, h]
  · by_cases h0 : filename = ""
    · simp [h0]
    · by_cases h1 : strStartsWith filename "/" = true <;> simp [h0, h1, h]

/-! ## Claim C4 (poisoned-mutex policy of the PTT capture service) -/

/-- C4 counterexample: take_audio on a poisoned capture-buffer mutex
returns the BufferLockPoisoned error instead of recovering, refuting
the claim that no capture-service operation ever surfaces a poisoned
lock as an error. -/
theorem C4_counterexample :
    PttCaptureService.take_audio true capFixture =
      (.error PttCaptureError.bufferLockPoisoned, capFixture) := by
  rfl

/-- C4 amended: a poisoned buffer or meter lock is surfaced as the
matching PttCaptureError by take_audio, level, start and the Pressed
arm of handle_hotkey_action (whose capture flag is already set when
the lock is found poisoned); the Released arm and stop take no such
lock and never surface poisoning. -/
theorem C4_poison_propagation
    (cap : PttCapture) (reading : LevelReading) (hk : Hotkey) (b : AudioBackendM) :
    PttCaptureService.take_audio true cap = (.error .bufferLockPoisoned, cap)
    ∧ PttCaptureService.level true reading = .error .meterLockPoisoned
    ∧ AudioCaptureService.level true reading = .error AudioError.meterLockPoisoned
    ∧ PttCaptureService.handle_hotkey_action true cap
        { action := cap.action, hotkey := hk, state := .pressed }
        = (.error .bufferLockPoisoned, { cap with captureActive := true })
    ∧ PttCaptureService.handle_hotkey_action true cap
        { action := cap.action, hotkey := hk, state := .released }
        = (.ok (), { cap with captureActive := false })
    ∧ (PttCaptureService.start true false b cap).1 = .error .bufferLockPoisoned
    ∧ (PttCaptureService.start false true b cap).1 = .error .meterLockPoisoned
    ∧ (PttCaptureService.stopCapture cap).1 ≠ .error PttCaptureError.bufferLockPoisoned
    ∧ (PttCaptureService.stopCapture cap).1 ≠ .error PttCaptureError.meterLockPoisoned := by
  refine ⟨rfl, rfl, rfl, ?_, ?_, rfl, rfl, ?_, ?_⟩
  · simp [PttCaptureService.handle_hotkey_action]
  · simp [PttCaptureService.handle_hotkey_action]
  · unfold PttCaptureService.stopCapture
    rcases h : AudioCaptureService.stopSvc { cap with captureActive := false }.audio with e | svc <;> simp [h]
  · unfold PttCaptureService.stopCapture
    rcases h : AudioCaptureService.stopSvc { cap with captureActive := false }.audio with e | svc <;> simp [h]

/-! ## Claim C9 (manual-toggle debounce) -/

/-- C9 counterexample: two /toggle requests arriving 100 ms apart on
the localhost control surface BOTH invoke manual_toggle; the claimed
400 ms debounce does not exist on the HTTP path. -/
theorem C9_counterexample :
    controlServerToggleInvocations [(0, "/toggle"), (100, "/toggle")] = 2
    ∧ controlServerToggleInvocations [(0, "/toggle"), (100, "/toggle")] ≠ 1 := by
  have h : controlServerToggleInvocations [(0, "/toggle"), (100, "/toggle")] = 2 := by
    decide
  exact ⟨h, by rw [h]; omega⟩

/-- C9 amended: the HTTP control surface forwards every /toggle request
independently of arrival times (no debounce), while the SIGUSR1 signal
worker debounces with a 400 ms window from the previous accepted
toggle: of two pendings 100 ms apart the second is dropped, and two
pendings 500 ms apart are both accepted. -/
theorem C9_toggle_debounce (requests : List (ℕ × String)) (f : ℕ → ℕ) (t : ℕ)
    (ht : 400 ≤ t) :
    controlServerToggleInvocations (requests.map fun r => (f r.1, r.2))
      = controlServerToggleInvocations requests
    ∧ signalWorkerRun 0 [t, t + 100] = [t]
    ∧ signalWorkerRun 0 [t, t + 500] = [t, t + 500] := by
  refine ⟨?_, ?_, ?_⟩
  · unfold controlServerToggleInvocations
    rw [List.filter_map]
    simp [Function.comp_def]
  · have h1 : ¬ t < 400 := by omega
    simp [signalWorkerRun, signalWorkerStep, h1, Nat.add_sub_cancel_left]
  · have h1 : ¬ t < 400 := by omega
    simp [signalWorkerRun, signalWorkerStep, h1, Nat.add_sub_cancel_left]

/-- Witness for C9: the amended statement at concrete inputs. -/
theorem C9_toggle_debounce_witness :
    signalWorkerRun 0 [1000, 1100] = [1000]
    ∧ signalWorkerRun 0 [1000, 1500] = [1000, 1500] := by
  have h := C9_toggle_debounce [(5, "/toggle")] (fun n => n + 3) 1000 (by decide)
  exact ⟨h.2.1, h.2.2⟩

/-! ## Claim C6 (unsafe filenames rejected everywhere) -/

/-- C6: for a registered spec whose filename is empty, absolute, or
contains a parent-directory component, model_path,
ensure_model_available, ensure_model_cached and write_model_bytes all
fail with InvalidFilename, invoke no downloader and write nothing. -/
theorem C6_invalid_filename_rejected
    (sha : List ℕ → String) (fs : Fs) (m : ModelManager) (id : ModelId)
    (spec : ModelSpec) (downloader : String → Except ModelError (List ℕ))
    (bytes : List ℕ)
    (hreg : m.lookup id = some spec)
    (hbad : spec.filename = "" ∨ strStartsWith spec.filename "/" = true ∨
      (pathComponents spec.filename).any (fun c => c = "..") = true) :
    m.model_path id = .error (.invalidFilename spec.filename)
    ∧ ModelManager.ensure_model_available sha fs m id
        = .error (.invalidFilename spec.filename)
    ∧ ModelManager.ensure_model_cached sha m id downloader fs
        = (.error (.invalidFilename spec.filename), [])
    ∧ m.write_model_bytes id bytes = (.error (.invalidFilename spec.filename), []) := by
  have hv := validate_bad spec.filename hbad
  have hpath : m.model_path id = .error (.invalidFilename spec.filename) := by
    simp [ModelManager.model_path, hreg, hv, Bind.bind, Except.bind]
  refine ⟨hpath, ?_, ?_, ?_⟩
  · simp [ModelManager.ensure_model_available, hreg, hv, Bind.bind, Except.bind]
  · simp [ModelManager.ensure_model_cached, hreg, hv]
  · unfold ModelManager.write_model_bytes
    rw [hpath]

/-- Witness for C6: the traversal fixture ../bad.bin is rejected by
model_path. -/
theorem C6_invalid_filename_rejected_witness :
    mgrBad.model_path (.custom "bad") = .error (.invalidFilename "../bad.bin") :=
  (C6_invalid_filename_rejected shaFixture fsEmpty mgrBad (.custom "bad") specBad
    dlCached [] (by decide) (by decide)).1

/-! ## Claim C5 (downloader invocation policy of ensure_model_cached) -/

/-- C5: ensure_model_cached never invokes the downloader when the
cached file verifies against the spec; it performs exactly one
downloader invocation per call when verification fails with
MissingFile, SizeMismatch or ChecksumMismatch and a download URL is
registered; any other verification error is returned untouched with
zero downloader invocations; and a nonzero invocation count only ever
arises from one of the three re-download errors. -/
theorem C5_download_policy
    (sha : List ℕ → String) (m : ModelManager) (id : ModelId) (spec : ModelSpec)
    (downloader : String → Except ModelError (List ℕ)) (fs : Fs)
    (hreg : m.lookup id = some spec)
    (hvalid : validate_model_filename spec.filename = .ok ()) :
    (verify_model_file sha fs (joinPath m.root spec.filename) spec = .ok () →
       ModelManager.ensure_model_cached sha m id downloader fs
         = (.ok (joinPath m.root spec.filename), []))
    ∧ (∀ e url, verify_model_file sha fs (joinPath m.root spec.filename) spec = .error e →
        cachedRetryable e = true → spec.download_url = some url →
        downloadCount (ModelManager.ensure_model_cached sha m id downloader fs).2 = 1)
    ∧ (∀ e, verify_model_file sha fs (joinPath m.root spec.filename) spec = .error e →
        cachedRetryable e = false →
        ModelManager.ensure_model_cached sha m id downloader fs = (.error e, []))
    ∧ (downloadCount (ModelManager.ensure_model_cached sha m id downloader fs).2 ≠ 0 →
        ∃ e, verify_model_file sha fs (joinPath m.root spec.filename) spec = .error e
          ∧ cachedRetryable e = true) := by
  refine ⟨?_, ?_, ?_, ?_⟩
  · intro hok
    simp [ModelManager.ensure_model_cached, hreg, hvalid, hok]
  · intro e url he hr hu
    rcases hd : downloader url with e2 | bytes
    · simp [ModelManager.ensure_model_cached, hreg, hvalid, he, hr, hu, hd, downloadCount]
    · rcases hb : verify_model_bytes sha spec bytes with e3 | u <;>
        simp [ModelManager.ensure_model_cached, hreg, hvalid, he, hr, hu, hd, hb, downloadCount]
  · intro e he hr
    simp [ModelManager.ensure_model_cached, hreg, hvalid, he, hr]
  · intro hne
    rcases hv2 : verify_model_file sha fs (joinPath m.root spec.filename) spec with e | u
    · cases hr : cachedRetryable e with
      | false => exact absurd (by simp [ModelManager.ensure_model_cached, hreg, hvalid, hv2, hr, downloadCount]) hne
      | true => exact ⟨e, rfl, hr⟩
    · exact absurd (by simp [ModelManager.ensure_model_cached, hreg, hvalid, hv2, downloadCount]) hne

/-- Witness for C5: with the fully checked fixture the matching cache
yields zero downloads, the empty cache yields exactly one, and the
unreadable cache propagates the Io error with zero downloads. -/
theorem C5_download_policy_witness :
    ModelManager.ensure_model_cached shaFixture mgrChecked (.custom "m") dlCached fsMatch
      = (.ok "/models/m.bin", [])
    ∧ downloadCount
        (ModelManager.ensure_model_cached shaFixture mgrChecked (.custom "m") dlCached fsEmpty).2
      = 1
    ∧ ModelManager.ensure_model_cached shaFixture mgrChecked (.custom "m") dlCached fsUnreadable
      = (.error (.ioError "failed to open model file"), []) := by
  refine ⟨?_, ?_, ?_⟩
  · exact (C5_download_policy shaFixture mgrChecked (.custom "m") specChecked dlCached
      fsMatch (by decide) (by decide)).1 (by decide)
  · exact (C5_download_policy shaFixture mgrChecked (.custom "m") specChecked dlCached
      fsEmpty (by decide) (by decide)).2.1 (.missingFile "/models/m.bin") "u"
      (by decide) (by decide) (by decide)
  · exact (C5_download_policy shaFixture mgrChecked (.custom "m") specChecked dlCached
      fsUnreadable (by decide) (by decide)).2.2.1 (.ioError "failed to open model file")
      (by decide) (by decide)

/-! ## Claim C7 (temporary-file name of the atomic install) -/

/-- C7 counterexample: re-downloading the registered spec cached.bin
writes the temporary file /models/cached.download, obtained by
REPLACING the .bin extension, not the claimed /models/cached.bin.download
obtained by appending .download to the full filename. -/
theorem C7_counterexample :
    (ModelManager.ensure_model_cached shaFixture mgrCached (.custom "cached") dlCached fsEmpty).2
      = [FsEvent.download "file://mock",
         FsEvent.create "/models/cached.download" [7, 7],
         FsEvent.rename "/models/cached.download" "/models/cached.bin"]
    ∧ joinPath mgrCached.root specCached.filename ++ ".download"
        ≠ "/models/cached.download" := by
  refine ⟨?_, ?_⟩ <;> decide

/-- C7 amended: when ensure_model_cached re-downloads, the verified
bytes are written to the sibling temporary file obtained from the
final path by Path::with_extension("download") (the filename with its
extension REPLACED by download, or with .download appended only when
it has no extension), and that temporary is then renamed over the
final path root/filename; as long as that temporary name differs from
the final path, the final path is never the target of a direct write,
and after the rename the final path holds the downloaded bytes. -/
theorem C7_atomic_install
    (sha : List ℕ → String) (m : ModelManager) (id : ModelId) (spec : ModelSpec)
    (downloader : String → Except ModelError (List ℕ)) (fs : Fs)
    (e : ModelError) (url : String) (bytes : List ℕ)
    (hreg : m.lookup id = some spec)
    (hvalid : validate_model_filename spec.filename = .ok ())
    (hverify : verify_model_file sha fs (joinPath m.root spec.filename) spec = .error e)
    (hretry : cachedRetryable e = true)
    (hurl : spec.download_url = some url)
    (hdl : downloader url = .ok bytes)
    (hbytes : verify_model_bytes sha spec bytes = .ok ())
    (hne : withExtension (joinPath m.root spec.filename) "download"
             ≠ joinPath m.root spec.filename) :
    ModelManager.ensure_model_cached sha m id downloader fs
      = (.ok (joinPath m.root spec.filename),
         [.download url,
          .create (withExtension (joinPath m.root spec.filename) "download") bytes,
          .rename (withExtension (joinPath m.root spec.filename) "download")
                  (joinPath m.root spec.filename)])
    ∧ (∀ b2, FsEvent.create (joinPath m.root spec.filename) b2
          ∉ (ModelManager.ensure_model_cached sha m id downloader fs).2)
    ∧ runFsEvents fs (ModelManager.ensure_model_cached sha m id downloader fs).2
        (joinPath m.root spec.filename) = .present bytes := by
  have hmain : ModelManager.ensure_model_cached sha m id downloader fs
      = (.ok (joinPath m.root spec.filename),
         [.download url,
          .create (withExtension (joinPath m.root spec.filename) "download") bytes,
          .rename (withExtension (joinPath m.root spec.filename) "download")
                  (joinPath m.root spec.filename)]) := by
    simp [ModelManager.ensure_model_cached, hreg, hvalid, hverify, hretry, hurl, hdl, hbytes]
  refine ⟨hmain, ?_, ?_⟩
  · intro b2
    rw [hmain]
    intro hmem
    simp only [List.mem_cons, List.not_mem_nil, or_false] at hmem
    rcases hmem with h | h | h
    · exact FsEvent.noConfusion h
    · injection h with h1 h2
      exact hne h1.symm
    · exact FsEvent.noConfusion h
  · rw [hmain]
    simp [runFsEvents, applyFsEvent]

/-- Witness for C7: the amended statement at the cached.bin fixture. -/
theorem C7_atomic_install_witness :
    ModelManager.ensure_model_cached shaFixture mgrCached (.custom "cached") dlCached fsEmpty
      = (.ok "/models/cached.bin",
         [.download "file://mock",
          .create "/models/cached.download" [7, 7],
          .rename "/models/cached.download" "/models/cached.bin"]) :=
  (C7_atomic_install shaFixture mgrCached (.custom "cached") specCached dlCached fsEmpty
    (.missingFile "/models/cached.bin") "file://mock" [7, 7]
    (by decide) (by decide) (by decide) (by decide) (by decide) (by decide) (by decide)
    (by decide)).1

/-! ## Claim C8 (level meter reading) -/

/-- The finite-sample specialization of the meter loop body. -/
def meterStepQ (acc : MeterAcc) (q : ℚ) : MeterAcc :=
  { peak := if |q| > acc.peak then |q| else acc.peak
    sum := acc.sum + q * q
    clipped := acc.clipped || decide (|q| ≥ 1)
    count := acc.count + 1 }

/-- The meter fold over a block equals the finite-sample fold over the
finite samples of the block (non-finite samples are skipped). -/
lemma foldl_meterStep_eq (samples : List Sample) (acc : MeterAcc) :
    samples.foldl meterStep acc = (finiteSamples samples).foldl meterStepQ acc := by
  induction samples generalizing acc with
  | nil => rfl
  | cons s t ih =>
    cases s with
    | none => simpa [finiteSamples, meterStep] using ih acc
    | some q => simpa [finiteSamples, meterStep, meterStepQ] using ih (meterStepQ acc q)

/-- The peak update of the loop body is a maximum. -/
lemma meterStepQ_peak (acc : MeterAcc) (q : ℚ) :
    (meterStepQ acc q).peak = max acc.peak |q| := by
  rcases le_or_lt |q| acc.peak with h | h
  · simp [meterStepQ, not_lt.mpr h, max_eq_left h]
  · simp [meterStepQ, h, max_eq_right h.le]

/-- The count after the finite fold. -/
lemma fold_count (l : List ℚ) (acc : MeterAcc) :
    (l.foldl meterStepQ acc).count = acc.count + l.length := by
  induction l generalizing acc with
  | nil => simp
  | cons q t ih =>
    rw [List.foldl_cons, ih (meterStepQ acc q)]
    simp only [meterStepQ, List.length_cons]
    omega

/-- The sum of squares after the finite fold. -/
lemma fold_sum (l : List ℚ) (acc : MeterAcc) :
    (l.foldl meterStepQ acc).sum = acc.sum + (l.map fun q => q * q).sum := by
  induction l generalizing acc with
  | nil => simp
  | cons q t ih =>
    rw [List.foldl_cons, ih (meterStepQ acc q)]
    simp only [meterStepQ, List.map_cons, List.sum_cons]
    ring

/-- The clipping flag after the finite fold. -/
lemma fold_clipped (l : List ℚ) (acc : MeterAcc) :
    (l.foldl meterStepQ acc).clipped = (acc.clipped || l.any fun q => decide (1 ≤ |q|)) := by
  induction l generalizing acc with
  | nil => simp
  | cons q t ih =>
    rw [List.foldl_cons, ih (meterStepQ acc q)]
    simp only [meterStepQ, List.any_cons]
    cases acc.clipped <;> simp [ge_iff_le, Bool.or_assoc]

/-- The folded peak dominates its start value and every sample. -/
lemma fold_peak_ge (l : List ℚ) (acc : MeterAcc) :
    acc.peak ≤ (l.foldl meterStepQ acc).peak
    ∧ ∀ q ∈ l, |q| ≤ (l.foldl meterStepQ acc).peak := by
  induction l generalizing acc with
  | nil => simp
  | cons q t ih =>
    obtain ⟨h1, h2⟩ := ih (meterStepQ acc q)
    refine ⟨le_trans ?_ h1, ?_⟩
    · rw [meterStepQ_peak]
      exact le_max_left _ _
    · intro r hr
      rcases List.mem_cons.mp hr with h | h
      · subst h
        exact le_trans (by rw [meterStepQ_peak]; exact le_max_right _ _) h1
      · exact h2 r h

/-- The folded peak is either the start value or attained by a sample. -/
lemma fold_peak_cases (l : List ℚ) (acc : MeterAcc) :
    (l.foldl meterStepQ acc).peak = acc.peak
    ∨ ∃ q ∈ l, |q| = (l.foldl meterStepQ acc).peak := by
  induction l generalizing acc with
  | nil => exact Or.inl rfl
  | cons q t ih =>
    rcases ih (meterStepQ acc q) with h | ⟨r, hr, hpk⟩
    · rw [List.foldl_cons, h, meterStepQ_peak]
      rcases le_or_lt |q| acc.peak with hle | hlt
      · exact Or.inl (max_eq_left hle)
      · exact Or.inr ⟨q, List.mem_cons_self q t, (max_eq_right hlt.le).symm⟩
    · exact Or.inr ⟨r, List.mem_cons_of_mem q hr, hpk⟩

/-- C8: after an update, the peak is the maximum absolute value of the
finite samples of the block, the stored rms square is exactly the mean
of their squares (so the rms of the source is exactly the square root
of that mean, within any tolerance), the clipping flag holds iff some
finite sample has absolute value at least 1, non-finite samples are
ignored throughout, and a block with no finite sample leaves the
reading unchanged. -/
theorem C8_meter_reading (reading : LevelReading) (samples : List Sample) :
    (finiteSamples samples = [] → LevelMeter.update reading samples = reading)
    ∧ (finiteSamples samples ≠ [] →
        (∀ q ∈ finiteSamples samples, |q| ≤ (LevelMeter.update reading samples).peak)
        ∧ (∃ q ∈ finiteSamples samples, |q| = (LevelMeter.update reading samples).peak)
        ∧ (LevelMeter.update reading samples).rmsSq
            = ((finiteSamples samples).map fun q => q * q).sum
                / ((finiteSamples samples).length : ℚ)
        ∧ ((LevelMeter.update reading samples).clipped = true
            ↔ ∃ q ∈ finiteSamples samples, 1 ≤ |q|)) := by
  have hcount : (samples.foldl meterStep
      { peak := 0, sum := 0, clipped := false, count := 0 }).count
      = (finiteSamples samples).length := by
    rw [foldl_meterStep_eq, fold_count]
    simp
  constructor
  · intro hempty
    by_cases hs : samples.isEmpty
    · simp [LevelMeter.update, hs]
    · have : (samples.foldl meterStep
          { peak := 0, sum := 0, clipped := false, count := 0 }).count = 0 := by
        rw [hcount, hempty]
        rfl
      simp [LevelMeter.update, hs, this]
  · intro hne
    have hs : samples.isEmpty = false := by
      cases samples with
      | nil => exact absurd rfl hne
      | cons a t => rfl
    have hlen : (finiteSamples samples).length ≠ 0 :=
      fun h => hne (List.eq_nil_of_length_eq_zero h)
    have hcne : ¬ (samples.foldl meterStep
        { peak := 0, sum := 0, clipped := false, count := 0 }).count = 0 := by
      rw [hcount]
      exact hlen
    have hupd : LevelMeter.update reading samples
        = { rmsSq := (samples.foldl meterStep
              { peak := 0, sum := 0, clipped := false, count := 0 }).sum
              / ((samples.foldl meterStep
              { peak := 0, sum := 0, clipped := false, count := 0 }).count : ℚ)
            peak := (samples.foldl meterStep
              { peak := 0, sum := 0, clipped := false, count := 0 }).peak
            clipped := (samples.foldl meterStep
              { peak := 0, sum := 0, clipped := false, count := 0 }).clipped } := by
      simp [LevelMeter.update, hs, hcne]
    obtain ⟨hge0, hgeall⟩ :=
      fold_peak_ge (finiteSamples samples) { peak := 0, sum := 0, clipped := false, count := 0 }
    refine ⟨?_, ?_, ?_, ?_⟩
    · intro q hq
      rw [hupd]
      simpa [foldl_meterStep_eq] using hgeall q hq
    · rcases fold_peak_cases (finiteSamples samples)
        { peak := 0, sum := 0, clipped := false, count := 0 } with hz | ⟨q, hq, hqe⟩
      · cases hfs : finiteSamples samples with
        | nil => exact absurd hfs hne
        | cons q t =>
          refine ⟨q, by simp [hfs], ?_⟩
          have hle : |q| ≤ (List.foldl meterStepQ
              { peak := 0, sum := 0, clipped := false, count := 0 }
              (finiteSamples samples)).peak := by
            exact hgeall q (by simp [hfs])
          rw [hupd]
          simp only [foldl_meterStep_eq]
          rw [hz] at hle ⊢
          exact le_antisymm hle (abs_nonneg q)
      · exact ⟨q, hq, by rw [hupd]; simpa [foldl_meterStep_eq] using hqe⟩
    · rw [hupd]
      simp only [foldl_meterStep_eq, fold_sum, fold_count]
      norm_num
    · rw [hupd]
      simp only [foldl_meterStep_eq, fold_clipped]
      simp [List.any_eq_true]

/-- Witness for C8: a block with only non-finite samples leaves a
reading unchanged, and the reading of the block with finite samples
1/2 and -2 (plus one NaN) has mean square 17/8. -/
theorem C8_meter_reading_witness :
    LevelMeter.update { rmsSq := 5, peak := 5, clipped := true } [none, none]
      = { rmsSq := 5, peak := 5, clipped := true }
    ∧ (LevelMeter.update { rmsSq := 0, peak := 0, clipped := false }
        [some (1 / 2), none, some (-2)]).rmsSq = 17 / 8 := by
  constructor
  · exact (C8_meter_reading { rmsSq := 5, peak := 5, clipped := true } [none, none]).1 rfl
  · have h := (C8_meter_reading { rmsSq := 0, peak := 0, clipped := false }
      [some (1 / 2), none, some (-2)]).2 (by decide)
    rw [h.2.2.1]
    simp [finiteSamples, List.filterMap_cons]
    norm_num

/-! ## Controller helper lemmas -/

/-- Uniform description of set_state: with structure eta, the
suppressed same-to-same transition still leaves the state field equal
to the requested state. -/
lemma set_state_fst (c : Ctrl) (next : PttState) :
    (PttController.set_state c next).1 = { c with state := next } := by
  unfold PttController.set_state
  by_cases h : c.state = next
  · rw [if_pos h, ← h]
  · rw [if_neg h]

/-- The unpoisoned capture-service hotkey handler never fails. -/
lemma capture_handle_fst (cap : PttCapture) (e : HotkeyActionEvent) :
    (PttCaptureService.handle_hotkey_action false cap e).1 = .ok () := by
  unfold PttCaptureService.handle_hotkey_action
  by_cases h : e.action ≠ cap.action
  · simp [h]
  · cases hs : e.state <;> simp [h, hs]

/-- Unpoisoned take_audio drains the buffer. -/
lemma take_audio_unpoisoned (cap : PttCapture) :
    PttCaptureService.take_audio false cap = (.ok cap.buffer, { cap with buffer := [] }) :=
  rfl

/-- First projection of unpoisoned take_audio. -/
lemma take_audio_fst (cap : PttCapture) :
    (PttCaptureService.take_audio false cap).1 = .ok cap.buffer :=
  rfl

/-- Second projection of unpoisoned take_audio. -/
lemma take_audio_snd (cap : PttCapture) :
    (PttCaptureService.take_audio false cap).2 = { cap with buffer := [] } :=
  rfl

/-- Starting the capture service preserves the action tag. -/
lemma capture_start_action (bp mp : Bool) (b : AudioBackendM) (cap : PttCapture) :
    ((PttCaptureService.start bp mp b cap).2).action = cap.action := by
  cases bp
  · cases mp
    · rcases h : AudioCaptureService.start_internal b cap.audio with e | svc <;>
        simp [PttCaptureService.start, h]
    · simp [PttCaptureService.start]
  · simp [PttCaptureService.start]

/-- prepare_audio only ever updates the capture component. -/
lemma prepare_audio_capture_only (env : Env) (c : Ctrl) (s : AppSettings) :
    ∃ cap, (PttController.prepare_audio env c s).2 = { c with capture := cap } := by
  refine ⟨(PttController.prepare_audio env c s).2.capture, ?_⟩
  unfold PttController.prepare_audio
  rcases hr : AudioCaptureService.refresh_devices env.backend c.capture.audio with e | svc
  · rfl
  · simp only []
    repeat
      first
      | rfl
      | split

/-- complete_transcription always lands in Armed or Idle according to
the armed flag, whatever the transcription result. -/
lemma complete_transcription_fst (c : Ctrl) (r : Except String String) :
    (PttController.complete_transcription c r).1
      = { c with state := if c.armed then .armed else .idle } := by
  unfold PttController.complete_transcription PttController.emit_error
  rcases r with err | text
  · rw [set_state_fst, set_state_fst]
  · by_cases h : trimStr text = "" <;> simp only [h, reduceIte, if_pos, if_neg] <;> rw [set_state_fst]

/-- runWork lands in Armed or Idle according to the armed flag. -/
lemma runWork_fst (env : Env) (c : Ctrl) (w : TranscriptionWork) :
    (PttController.runWork env c w).1
      = { c with state := if c.armed then .armed else .idle } := by
  unfold PttController.runWork
  rw [complete_transcription_fst]

/-- The state field after set_state is the requested state. -/
lemma set_state_state (c : Ctrl) (next : PttState) :
    (PttController.set_state c next).1.state = next := by
  rw [set_state_fst]

/-- The events of set_state: nothing on a suppressed transition. -/
lemma set_state_snd (c : Ctrl) (next : PttState) :
    (PttController.set_state c next).2
      = if c.state = next then [] else [.stateEvent next] := by
  unfold PttController.set_state
  split <;> simp_all

/-- ensure_runtime never changes the runtime state field. -/
lemma ensure_runtime_snd_state (env : Env) (c : Ctrl) :
    (PttController.ensure_runtime env c).2.state = c.state := by
  unfold PttController.ensure_runtime
  split
  · rfl
  · simp only []
    repeat
      first
      | rfl
      | split

/-- prepare_audio preserves the capture action tag. -/
lemma prepare_audio_action (env : Env) (c : Ctrl) (s : AppSettings) :
    (PttController.prepare_audio env c s).2.capture.action = c.capture.action := by
  unfold PttController.prepare_audio
  rcases hr : AudioCaptureService.refresh_devices env.backend c.capture.audio with e | svc
  · rfl
  · simp only []
    repeat'
      first
      | rfl
      | exact capture_start_action false false env.backend _
      | split

/-- Case analysis of arm: on failure the state is untouched, on success
the controller is armed and in the Armed state. -/
lemma arm_snd_state (env : Env) (c : Ctrl) (s : AppSettings) (am : Option String) :
    ((PttController.arm env c s am).2.1.state = c.state
      ∧ ∃ e, (PttController.arm env c s am).1 = .error e)
    ∨ ((PttController.arm env c s am).2.1.state = .armed
      ∧ (PttController.arm env c s am).2.1.armed = true
      ∧ (PttController.arm env c s am).1 = .ok .armed) := by
  unfold PttController.arm
  simp only []
  obtain ⟨cap, hcap⟩ := prepare_audio_capture_only env
    ((PttController.set_active_model { c with settings := s } am).1) s
  split
  · left
    refine ⟨?_, _, rfl⟩
    rw [hcap]
    rfl
  · right
    refine ⟨?_, ?_, ?_⟩
    · rw [set_state_state]
    · rw [set_state_fst]
    · rw [set_state_state]

/-- arm preserves the capture action tag. -/
lemma arm_capture_action (env : Env) (c : Ctrl) (s : AppSettings) (am : Option String) :
    (PttController.arm env c s am).2.1.capture.action = c.capture.action := by
  unfold PttController.arm
  simp only []
  have hact := prepare_audio_action env
    ((PttController.set_active_model { c with settings := s } am).1) s
  split
  · exact hact
  · rw [set_state_fst]
    exact hact

/-- The runtime hotkey handler never fails when its locks are sound. -/
lemma handle_fst_ok (c : Ctrl) (event : HotkeyActionEvent) :
    ∃ ow, (PttController.handle_hotkey_action c event).1 = .ok ow := by
  obtain ⟨ea, eh, es⟩ := event
  unfold PttController.handle_hotkey_action
  by_cases harm : c.armed = true
  · by_cases hact : ea = "ptt"
    · subst hact
      rw [if_neg (by simp [harm]), if_neg (by simp)]
      simp only [capture_handle_fst, take_audio_fst]
      cases es
      · by_cases hcap : c.state = PttState.capturing
        · rw [if_pos ⟨rfl, hcap⟩]
          exact ⟨_, rfl⟩
        · rw [if_neg (by simp [hcap])]
          exact ⟨none, rfl⟩
      · rw [if_neg (by simp)]
        exact ⟨_, rfl⟩
    · rw [if_neg (by simp [harm]), if_pos (by simp [hact])]
      exact ⟨none, rfl⟩
  · rw [if_pos (by simp [harm])]
    exact ⟨none, rfl⟩

/-- The runtime hotkey handler leaves the state alone or moves it to
Capturing or Processing. -/
lemma handle_snd_state (c : Ctrl) (event : HotkeyActionEvent) :
    (PttController.handle_hotkey_action c event).2.1.state = c.state
    ∨ (PttController.handle_hotkey_action c event).2.1.state = .capturing
    ∨ (PttController.handle_hotkey_action c event).2.1.state = .processing := by
  obtain ⟨ea, eh, es⟩ := event
  unfold PttController.handle_hotkey_action
  by_cases harm : c.armed = true
  · by_cases hact : ea = "ptt"
    · subst hact
      rw [if_neg (by simp [harm]), if_neg (by simp)]
      simp only [capture_handle_fst, take_audio_fst, take_audio_snd]
      cases es
      · by_cases hcap : c.state = PttState.capturing
        · rw [if_pos ⟨rfl, hcap⟩]
          right
          right
          show ({ (PttController.set_state _ .processing).1 with
              capture := _ } : Ctrl).state = .processing
          rw [set_state_fst]
        · rw [if_neg (by simp [hcap])]
          right
          left
          rw [set_state_state]
      · rw [if_neg (by simp)]
        right
        right
        show ({ (PttController.set_state _ .processing).1 with
            capture := _ } : Ctrl).state = .processing
        rw [set_state_fst]
    · rw [if_neg (by simp [harm]), if_pos (by simp [hact])]
      exact Or.inl rfl
  · rw [if_pos (by simp [harm])]
    exact Or.inl rfl

/-- Closed form of the runtime handler when the effective edge is
Pressed: the capture gate opens, the buffer clears, the state becomes
Capturing. -/
lemma handle_pressed_eq (c : Ctrl) (eh : Hotkey) (es : HotkeyState)
    (harm : c.armed = true) (hcapt : c.capture.action = "ptt")
    (heff : (if es = HotkeyState.pressed ∧ c.state = PttState.capturing
             then HotkeyState.released else es) = HotkeyState.pressed) :
    PttController.handle_hotkey_action c { action := "ptt", hotkey := eh, state := es }
      = (.ok none,
         { c with state := .capturing
                  capture := { c.capture with captureActive := true, buffer := [] } },
         if c.state = PttState.capturing then ([] : List AppEvent)
         else [.stateEvent .capturing]) := by
  unfold PttController.handle_hotkey_action
  rw [if_neg (by simp [harm]), if_neg (by simp)]
  rw [heff]
  have hch : PttCaptureService.handle_hotkey_action false c.capture
      { action := "ptt", hotkey := eh, state := HotkeyState.pressed }
      = (.ok (), { c.capture with captureActive := true, buffer := [] }) := by
    simp [PttCaptureService.handle_hotkey_action, hcapt]
  simp only []
  rw [hch]
  simp only []
  rw [set_state_fst, set_state_snd]

/-- Closed form of the runtime handler when the effective edge is
Released (a genuine release, or a duplicate press coerced): the gate
closes, the buffer is drained into the returned work, the state
becomes Processing. -/
lemma handle_released_eq (c : Ctrl) (eh : Hotkey) (es : HotkeyState)
    (harm : c.armed = true) (hcapt : c.capture.action = "ptt")
    (heff : (if es = HotkeyState.pressed ∧ c.state = PttState.capturing
             then HotkeyState.released else es) = HotkeyState.released) :
    PttController.handle_hotkey_action c { action := "ptt", hotkey := eh, state := es }
      = (.ok (some
            { audio := resample_to_16k_mono c.capture.buffer
                (match c.capture.audio.selected with
                 | some d => d.sample_rate
                 | none => 16000)
                (match c.capture.audio.selected with
                 | some d => d.channels
                 | none => 1)
              output_mode := c.settings.output_mode }),
         { c with state := .processing
                  capture := { c.capture with captureActive := false, buffer := [] } },
         (if c.state = PttState.processing then ([] : List AppEvent)
          else [.stateEvent .processing]) ++ [.modelStatusEvent]) := by
  unfold PttController.handle_hotkey_action
  rw [if_neg (by simp [harm]), if_neg (by simp)]
  rw [heff]
  have hch : PttCaptureService.handle_hotkey_action false c.capture
      { action := "ptt", hotkey := eh, state := HotkeyState.released }
      = (.ok (), { c.capture with captureActive := false }) := by
    simp [PttCaptureService.handle_hotkey_action, hcapt]
  simp only []
  rw [hch]
  simp only []
  rw [set_state_fst, set_state_snd, take_audio_fst, take_audio_snd]

/-! ## Claim C10 (missing input device is silently ignored) -/

/-- C10: when the configured input device is neither "default" nor the
id of any refreshed device, prepare_audio behaves exactly as with
"default": the DeviceNotFound result of select_device is discarded, the
operation succeeds iff the stream is already running or the stream
start succeeds, and on a fresh start the stream runs on the previously
selected device or the backend default. -/
theorem C10_device_selection_fallback
    (env : Env) (c : Ctrl) (settings : AppSettings) (ds : List AudioDevice)
    (hlist : env.backend.listInput = .ok ds)
    (hnd : settings.input_device ≠ "default")
    (hmiss : ∀ d ∈ ds, d.id ≠ settings.input_device) :
    PttController.prepare_audio env c settings
      = PttController.prepare_audio env c { settings with input_device := "default" }
    ∧ ((PttController.prepare_audio env c settings).1 = .ok () ↔
        (c.capture.audio.running = true ∨
         ∃ svc, AudioCaptureService.start_internal env.backend
             { c.capture.audio with devices := ds } = .ok svc))
    ∧ (c.capture.audio.running = false →
        (PttController.prepare_audio env c settings).1 = .ok () →
        ∃ d, (PttController.prepare_audio env c settings).2.capture.audio.selected = some d
          ∧ (c.capture.audio.selected = some d
             ∨ (c.capture.audio.selected = none
                ∧ env.backend.defaultInput = .ok (some d)))) := by
  obtain ⟨st, armed, hk, agh, rs, hhr, hlr, cap, stg, am⟩ := c
  obtain ⟨act, audio, buf, ca⟩ := cap
  obtain ⟨devs, sel, run⟩ := audio
  simp only [] at *
  have hrefresh : AudioCaptureService.refresh_devices env.backend ⟨devs, sel, run⟩
      = .ok ⟨ds, sel, run⟩ := by
    simp [AudioCaptureService.refresh_devices, hlist]
  have hsel : AudioCaptureService.select_device ⟨ds, sel, run⟩ settings.input_device
      = .error .deviceNotFound := by
    unfold AudioCaptureService.select_device
    have hfind : (ds.find? fun d => d.id = settings.input_device) = none := by
      apply List.find?_eq_none.mpr
      intro d hd
      simp [hmiss d hd]
    simp only []
    rw [hfind]
  refine ⟨?_, ?_, ?_⟩
  · simp [PttController.prepare_audio, hrefresh, hnd, hsel]
  · cases run with
    | true => simp [PttController.prepare_audio, hrefresh, hnd, hsel]
    | false =>
      rcases hsi : AudioCaptureService.start_internal env.backend ⟨ds, sel, false⟩ with e | svc <;>
        simp [PttController.prepare_audio, hrefresh, hnd, hsel, PttCaptureService.start, hsi]
  · intro hrun hok
    subst hrun
    rcases hsi : AudioCaptureService.start_internal env.backend ⟨ds, sel, false⟩ with e | svc
    · exfalso
      rw [show (PttController.prepare_audio env
            ⟨st, armed, hk, agh, rs, hhr, hlr, ⟨act, ⟨devs, sel, false⟩, buf, ca⟩, stg, am⟩
            settings).1 = .error (PttCaptureError.audio e).message from by
          simp [PttController.prepare_audio, hrefresh, hnd, hsel, PttCaptureService.start, hsi]]
        at hok
      exact Except.noConfusion hok
    · have hpost : (PttController.prepare_audio env
          ⟨st, armed, hk, agh, rs, hhr, hlr, ⟨act, ⟨devs, sel, false⟩, buf, ca⟩, stg, am⟩
          settings).2.capture.audio.selected = svc.selected := by
        simp [PttController.prepare_audio, hrefresh, hnd, hsel, PttCaptureService.start, hsi]
      unfold AudioCaptureService.start_internal at hsi
      rw [if_neg (by simp)] at hsi
      rcases sel with _ | d
      · rcases hdef : env.backend.defaultInput with e2 | od
        · simp only [hdef] at hsi
          exact Except.noConfusion hsi
        · rcases od with _ | d0
          · simp only [hdef] at hsi
            exact Except.noConfusion hsi
          · simp only [hdef] at hsi
            rcases hb : env.backend.buildStream d0 with e3 | u
            · simp only [hb] at hsi; exact Except.noConfusion hsi
            · rcases hp : env.backend.playStream d0 with e4 | u2
              · simp only [hb, hp] at hsi; exact Except.noConfusion hsi
              · simp only [hb, hp] at hsi
                injection hsi with hsvc
                refine ⟨d0, ?_, Or.inr ⟨rfl, rfl⟩⟩
                rw [hpost, ← hsvc]
      · simp only [] at hsi
        rcases hb : env.backend.buildStream d with e3 | u
        · simp only [hb] at hsi; exact Except.noConfusion hsi
        · rcases hp : env.backend.playStream d with e4 | u2
          · simp only [hb, hp] at hsi; exact Except.noConfusion hsi
          · simp only [hb, hp] at hsi
            injection hsi with hsvc
            refine ⟨d, ?_, Or.inl rfl⟩
            rw [hpost, ← hsvc]

/-! ## Claim C3 (duplicate Pressed while Capturing) -/

/-- C3: a ptt Pressed edge received by the armed runtime while already
Capturing is coerced to a Released edge: the capture gate closes, the
buffer is drained into the transcription work, and the state moves to
Processing (no second Capturing transition is published). -/
theorem C3_duplicate_press_coerced
    (c : Ctrl) (event : HotkeyActionEvent)
    (harm : c.armed = true) (hcapt : c.capture.action = "ptt")
    (hact : event.action = "ptt") (hstate : event.state = HotkeyState.pressed)
    (hcap : c.state = PttState.capturing) :
    PttController.handle_hotkey_action c event
      = (.ok (some
            { audio := resample_to_16k_mono c.capture.buffer
                (match c.capture.audio.selected with
                 | some d => d.sample_rate
                 | none => 16000)
                (match c.capture.audio.selected with
                 | some d => d.channels
                 | none => 1)
              output_mode := c.settings.output_mode }),
         { c with state := .processing
                  capture := { c.capture with captureActive := false, buffer := [] } },
         [.stateEvent .processing, .modelStatusEvent]) := by
  obtain ⟨ea, eh, es⟩ := event
  simp only [] at hact hstate
  subst hact
  subst hstate
  rw [handle_released_eq c eh HotkeyState.pressed harm hcapt (by simp [hcap])]
  simp [hcap]

/-! ## Manual-toggle closed forms -/

/-- Manual toggle while Processing is the identity. -/
lemma manual_toggle_processing (env : Env) (c : Ctrl)
    (h : c.state = PttState.processing) :
    PttController.manual_toggle_recording env c = (.ok c.state, c, []) := by
  unfold PttController.manual_toggle_recording
  rw [if_pos h]

/-- Manual toggle from a disarmed runtime propagates an arm failure. -/
lemma manual_toggle_unarmed_err (env : Env) (c : Ctrl) (e : String)
    (hproc : c.state ≠ PttState.processing) (harm : c.armed = false)
    (herr : (PttController.arm env c c.settings c.activeModel).1 = .error e) :
    PttController.manual_toggle_recording env c
      = (.error e, (PttController.arm env c c.settings c.activeModel).2.1,
         (PttController.arm env c c.settings c.activeModel).2.2) := by
  unfold PttController.manual_toggle_recording
  rw [if_neg hproc]
  simp only []
  rw [if_pos (by simp [harm]), herr]

/-- Manual toggle from a disarmed runtime that arms successfully then
presses: the state ends Capturing with the gate open. -/
lemma manual_toggle_unarmed_ok (env : Env) (c : Ctrl)
    (hproc : c.state ≠ PttState.processing) (harm : c.armed = false)
    (hcapt : c.capture.action = "ptt")
    (hok : (PttController.arm env c c.settings c.activeModel).1 = .ok .armed) :
    (PttController.manual_toggle_recording env c).2.1.state = PttState.capturing
    ∧ (PttController.manual_toggle_recording env c).2.1.capture.captureActive = true := by
  have hsa : (PttController.arm env c c.settings c.activeModel).2.1.state = .armed := by
    rcases arm_snd_state env c c.settings c.activeModel with ⟨_, e, herr⟩ | ⟨h1, _, _⟩
    · rw [hok] at herr
      exact absurd herr (by simp)
    · exact h1
  have haa : (PttController.arm env c c.settings c.activeModel).2.1.armed = true := by
    rcases arm_snd_state env c c.settings c.activeModel with ⟨_, e, herr⟩ | ⟨_, h2, _⟩
    · rw [hok] at herr
      exact absurd herr (by simp)
    · exact h2
  have hca : (PttController.arm env c c.settings c.activeModel).2.1.capture.action = "ptt" :=
    (arm_capture_action env c c.settings c.activeModel).trans hcapt
  unfold PttController.manual_toggle_recording
  rw [if_neg hproc]
  simp only []
  rw [if_pos (by simp [harm]), hok]
  simp only []
  rw [if_neg (by rw [hsa]; simp)]
  rw [handle_pressed_eq _ _ _ haa hca (by simp [hsa])]
  simp

/-- Manual toggle from the armed runtime in Capturing synthesizes a
release: the buffer is drained, transcription completes, and the
runtime returns to Armed with the gate closed. -/
lemma manual_toggle_capturing (env : Env) (c : Ctrl)
    (hcap : c.state = PttState.capturing) (harm : c.armed = true)
    (hcapt : c.capture.action = "ptt") :
    (PttController.manual_toggle_recording env c).2.1.state = PttState.armed
    ∧ (PttController.manual_toggle_recording env c).2.1.capture.captureActive = false
    ∧ (PttController.manual_toggle_recording env c).2.1.capture.buffer = [] := by
  unfold PttController.manual_toggle_recording
  rw [if_neg (by simp [hcap])]
  simp only []
  rw [if_neg (by simp [harm])]
  simp only []
  rw [if_pos hcap]
  rw [handle_released_eq c c.hotkey HotkeyState.released harm hcapt (by simp)]
  simp only []
  rw [runWork_fst]
  simp [harm]

/-- Manual toggle from the armed runtime outside Capturing and
Processing synthesizes a press: the state ends Capturing with the gate
open on a cleared buffer. -/
lemma manual_toggle_armed_pressed (env : Env) (c : Ctrl)
    (hncap : c.state ≠ PttState.capturing) (hproc : c.state ≠ PttState.processing)
    (harm : c.armed = true) (hcapt : c.capture.action = "ptt") :
    (PttController.manual_toggle_recording env c).2.1.state = PttState.capturing
    ∧ (PttController.manual_toggle_recording env c).2.1.capture.captureActive = true
    ∧ (PttController.manual_toggle_recording env c).2.1.capture.buffer = [] := by
  unfold PttController.manual_toggle_recording
  rw [if_neg hproc]
  simp only []
  rw [if_neg (by simp [harm])]
  simp only []
  rw [if_neg hncap]
  rw [handle_pressed_eq c c.hotkey HotkeyState.pressed harm hcapt (by simp [hncap])]
  simp

/-! ## Claim C2 (manual toggle policy) -/

/-- C2: manual_toggle is idempotent in Processing; from a disarmed
runtime it first arms with the stored settings and active model
(propagating an arm failure untouched, else ending Capturing through a
synthesized Pressed edge); from the armed runtime it synthesizes a
Released edge in Capturing (ending Armed with the gate closed and the
buffer drained) and a Pressed edge otherwise (ending Capturing with the
gate open on a cleared buffer). -/
theorem C2_manual_toggle_policy (env : Env) (c : Ctrl)
    (hcapt : c.capture.action = "ptt") :
    (c.state = PttState.processing →
        PttController.manual_toggle_recording env c = (.ok c.state, c, []))
    ∧ (c.state ≠ PttState.processing → c.armed = false →
        ((∃ e, (PttController.arm env c c.settings c.activeModel).1 = .error e
             ∧ PttController.manual_toggle_recording env c
                 = (.error e, (PttController.arm env c c.settings c.activeModel).2.1,
                    (PttController.arm env c c.settings c.activeModel).2.2))
         ∨ ((PttController.arm env c c.settings c.activeModel).1 = .ok .armed
             ∧ (PttController.manual_toggle_recording env c).2.1.state = PttState.capturing
             ∧ (PttController.manual_toggle_recording env c).2.1.capture.captureActive = true)))
    ∧ (c.state = PttState.capturing → c.armed = true →
        (PttController.manual_toggle_recording env c).2.1.state = PttState.armed
        ∧ (PttController.manual_toggle_recording env c).2.1.capture.captureActive = false
        ∧ (PttController.manual_toggle_recording env c).2.1.capture.buffer = [])
    ∧ (c.state ≠ PttState.capturing → c.state ≠ PttState.processing → c.armed = true →
        (PttController.manual_toggle_recording env c).2.1.state = PttState.capturing
        ∧ (PttController.manual_toggle_recording env c).2.1.capture.captureActive = true
        ∧ (PttController.manual_toggle_recording env c).2.1.capture.buffer = []) := by
  refine ⟨?_, ?_, ?_, ?_⟩
  · intro hproc
    exact manual_toggle_processing env c hproc
  · intro hproc harm
    rcases arm_snd_state env c c.settings c.activeModel with ⟨_, e, herr⟩ | ⟨hsa, haa, hok⟩
    · exact Or.inl ⟨e, herr, manual_toggle_unarmed_err env c e hproc harm herr⟩
    · exact Or.inr ⟨hok, manual_toggle_unarmed_ok env c hproc harm hcapt hok⟩
  · intro hcap harm
    exact manual_toggle_capturing env c hcap harm hcapt
  · intro hncap hproc harm
    exact manual_toggle_armed_pressed env c hncap hproc harm hcapt

/-! ## Witness fixtures for the controller claims -/

/-- A concrete audio device. -/
def devFixture : AudioDevice :=
  { id := "0:Mock", name := "Mock", sample_rate := 16000, channels := 1 }

/-- A fully successful audio backend. -/
def backendFixture : AudioBackendM :=
  { listInput := .ok [devFixture]
    defaultInput := .ok (some devFixture)
    buildStream := fun _ => .ok ()
    playStream := fun _ => .ok () }

/-- A fully successful environment with a mock transcriber. -/
def envFixture : Env :=
  { backend := backendFixture
    listenerStart := .ok ()
    transcribe := fun _ => .ok "hello world"
    clipboardInject := fun _ => .ok ()
    directInject := fun _ => .ok () }

/-- The armed controller mid-capture with two buffered samples. -/
def ctrlCapturing : Ctrl :=
  { PttController.initial true with
      state := .capturing
      armed := true
      capture := { action := "ptt"
                   audio := { devices := [devFixture]
                              selected := some devFixture
                              running := true }
                   buffer := [1 / 2, 1 / 4]
                   captureActive := true } }

/-- The controller parked in Processing. -/
def ctrlProcessing : Ctrl :=
  { PttController.initial true with state := .processing }

/-- The armed idle-stream controller in the Armed state. -/
def ctrlArmed : Ctrl :=
  { PttController.initial true with
      state := .armed
      armed := true
      capture := { action := "ptt"
                   audio := { devices := [devFixture]
                              selected := some devFixture
                              running := true }
                   buffer := []
                   captureActive := false } }

/-- A ptt Pressed edge on the F9 key. -/
def eventPttPressed : HotkeyActionEvent :=
  { action := "ptt"
    hotkey := { key := .f9, modifiers := HotkeyModifiers.noMods }
    state := .pressed }

/-- Witness for C3: the capturing fixture coerces a duplicate press. -/
theorem C3_duplicate_press_coerced_witness :
    PttController.handle_hotkey_action ctrlCapturing eventPttPressed
      = (.ok (some { audio := [1 / 2, 1 / 4], output_mode := OutputMode.uiOnly }),
         { ctrlCapturing with
             state := .processing
             capture := { ctrlCapturing.capture with captureActive := false, buffer := [] } },
         [.stateEvent .processing, .modelStatusEvent]) := by
  exact C3_duplicate_press_coerced ctrlCapturing eventPttPressed rfl rfl rfl rfl rfl

/-- Witness for C2: the four policy arms at concrete controllers. -/
theorem C2_manual_toggle_policy_witness :
    PttController.manual_toggle_recording envFixture ctrlProcessing
      = (.ok PttState.processing, ctrlProcessing, [])
    ∧ (PttController.manual_toggle_recording envFixture (PttController.initial true)).2.1.state
        = PttState.capturing
    ∧ (PttController.manual_toggle_recording envFixture ctrlCapturing).2.1.state
        = PttState.armed
    ∧ (PttController.manual_toggle_recording envFixture ctrlArmed).2.1.state
        = PttState.capturing := by
  refine ⟨?_, ?_, ?_, ?_⟩
  · exact (C2_manual_toggle_policy envFixture ctrlProcessing rfl).1 rfl
  · have h := (C2_manual_toggle_policy envFixture (PttController.initial true) rfl).2.1
      (by decide) rfl
    rcases h with ⟨e, herr, _⟩ | ⟨_, hstate, _⟩
    · rw [show (PttController.arm envFixture (PttController.initial true)
          (PttController.initial true).settings (PttController.initial true).activeModel).1
          = Except.ok PttState.armed from rfl] at herr
      exact absurd herr (by simp)
    · exact hstate
  · exact ((C2_manual_toggle_policy envFixture ctrlCapturing rfl).2.2.1 rfl rfl).1
  · exact ((C2_manual_toggle_policy envFixture ctrlArmed rfl).2.2.2
      (by decide) (by decide) rfl).1

/-- Witness for C10: a configured device absent from the refreshed list
is ignored and prepare_audio matches the default-device run. -/
theorem C10_device_selection_fallback_witness :
    PttController.prepare_audio envFixture
        { PttController.initial true with
            settings := { AppSettings.defaults with input_device := "usb-mic" } }
        { AppSettings.defaults with input_device := "usb-mic" }
      = PttController.prepare_audio envFixture
          { PttController.initial true with
              settings := { AppSettings.defaults with input_device := "usb-mic" } }
          { { AppSettings.defaults with input_device := "usb-mic" } with
              input_device := "default" } := by
  exact (C10_device_selection_fallback envFixture
    { PttController.initial true with
        settings := { AppSettings.defaults with input_device := "usb-mic" } }
    { AppSettings.defaults with input_device := "usb-mic" } [devFixture]
    rfl (by decide) (by decide)).1

/-! ## Claim C1 (errors never latch the runtime) -/

/-- arm keeps the state out of Error when it starts out of Error. -/
lemma arm_state_not_error (env : Env) (c : Ctrl) (s : AppSettings) (am : Option String)
    (h : c.state.isError = false) :
    (PttController.arm env c s am).2.1.state.isError = false := by
  rcases arm_snd_state env c s am with ⟨hse, _, _⟩ | ⟨hsa, _, _⟩
  · rw [hse]
    exact h
  · rw [hsa]
    rfl

/-- The hotkey handler keeps the state out of Error. -/
lemma handle_state_ok (c : Ctrl) (event : HotkeyActionEvent)
    (h : c.state.isError = false) :
    (PttController.handle_hotkey_action c event).2.1.state.isError = false := by
  rcases handle_snd_state c event with h1 | h1 | h1 <;> rw [h1]
  · exact h
  · rfl
  · rfl

/-- Armed or Idle is never the Error state. -/
lemma if_armed_not_error (b : Bool) :
    (PttState.isError (if b = true then PttState.armed else PttState.idle)) = false := by
  cases b <;> rfl

/-- Manual toggle keeps the state out of Error. -/
lemma manual_toggle_state_ok (env : Env) (c : Ctrl) (h : c.state.isError = false) :
    (PttController.manual_toggle_recording env c).2.1.state.isError = false := by
  unfold PttController.manual_toggle_recording
  by_cases hproc : c.state = PttState.processing
  · rw [if_pos hproc]
    exact h
  · rw [if_neg hproc]
    simp only []
    by_cases hb : c.armed = true
    · rw [if_neg (by simp [hb])]
      split
      · rename_i e heq
        exact absurd heq (by simp)
      · split
        · exact handle_state_ok _ _ h
        · exact handle_state_ok _ _ h
        · rw [runWork_fst]
          exact if_armed_not_error _
    · rw [if_pos (by simp [hb])]
      rcases arm_snd_state env c c.settings c.activeModel with ⟨hse, e, herr⟩ | ⟨hsa, haa, hok⟩
      · rw [herr]
        simp only []
        rw [hse]
        exact h
      · rw [hok]
        simp only []
        have h2 : (PttController.arm env c c.settings c.activeModel).2.1.state.isError
            = false := by
          rw [hsa]
          rfl
        split
        · exact handle_state_ok _ _ h2
        · exact handle_state_ok _ _ h2
        · rw [runWork_fst]
          exact if_armed_not_error _

/-- Every single runtime step keeps the state out of Error. -/
lemma runStep_not_error (env : Env) (c : Ctrl) (cmd : PttCommand)
    (h : c.state.isError = false) :
    (PttController.runStep env c cmd).1.state.isError = false := by
  cases cmd with
  | startCmd settings am =>
      show ((PttController.startCtrl env c settings am).2.1).state.isError = false
      unfold PttController.startCtrl
      split
      · rw [ensure_runtime_snd_state]
        exact h
      · exact arm_state_not_error env _ settings am
          (by rw [ensure_runtime_snd_state]; exact h)
  | stopCmd =>
      show ((PttController.stopCtrl c).2.1).state.isError = false
      unfold PttController.stopCtrl
      simp only []
      rw [set_state_state]
      rfl
  | setHotkey payload =>
      show ((PttController.set_hotkey c payload).2).state.isError = false
      unfold PttController.set_hotkey
      split
      · exact h
      · exact h
  | updateSettings settings => exact h
  | setActiveModel am => exact h
  | manualToggle => exact manual_toggle_state_ok env c h
  | hotkeyEdge event =>
      simp only [PttController.runStep]
      split
      · rename_i err heq
        obtain ⟨ow, how⟩ := handle_fst_ok c event
        rw [heq] at how
        exact absurd how (by simp)
      · rcases handle_snd_state c event with h1 | h1 | h1 <;> rw [h1]
        · exact h
        · rfl
        · rfl
      · rw [runWork_fst]
        exact if_armed_not_error _

/-- C1: on a transcription error the runtime publishes the ptt_error
event and then settles in Armed (still armed) or Idle (disarmed); and
no sequence of commands and hotkey edges ever leaves the runtime in
the Error state after a completed step. -/
theorem C1_error_never_latches :
    (∀ (c : Ctrl) (err : String),
        PttController.complete_transcription c (.error err)
          = ({ c with state := if c.armed then .armed else .idle },
             (if c.state = PttState.error err then ([] : List AppEvent)
              else [.stateEvent (.error err)])
               ++ [.errorEvent err, .modelStatusEvent,
                   .stateEvent (if c.armed then .armed else .idle)]))
    ∧ ∀ (env : Env) (agh : Bool) (cmds : List PttCommand),
        (PttController.runSteps env (PttController.initial agh) cmds).state.isError
          = false := by
  constructor
  · intro c err
    have h1 : (PttController.emit_error c err).1 = { c with state := .error err } := by
      unfold PttController.emit_error
      rw [set_state_fst]
    have h2 : (PttController.emit_error c err).2
        = (if c.state = PttState.error err then ([] : List AppEvent)
           else [.stateEvent (.error err)]) ++ [.errorEvent err] := by
      unfold PttController.emit_error
      rw [set_state_snd]
    unfold PttController.complete_transcription
    simp only []
    rw [h1, h2]
    rw [set_state_fst, set_state_snd]
    cases hA : c.armed <;> simp [hA]
  · intro env agh cmds
    have hstep : ∀ (cs : List PttCommand) (c : Ctrl), c.state.isError = false →
        (PttController.runSteps env c cs).state.isError = false := by
      intro cs
      induction cs with
      | nil =>
          intro c h
          exact h
      | cons cmd rest ih =>
          intro c h
          exact ih _ (runStep_not_error env c cmd h)
    exact hstep cmds (PttController.initial agh) rfl

end OpenWhisperAI
